import Mathlib

/-!
Verification of the `CometMigrator` settlement orchestrator (the Solidity
contract embedded in `src/web/AaveV2Migrator.tsx`, lines 1294-1694).

The contract is shallowly embedded: uint256 values are modelled as `Nat`
(Solidity 0.8 checked arithmetic reverts on overflow rather than wrapping;
the single wrapping operation in the source, the `uint256(int256)` cast in
`uniswapV3SwapCallback`, is modelled with an explicit `% 2^256`).  Fallible
calls return `Except Err State`; the EVM's transaction semantics (full state
rollback on revert) is modelled by the `*Tx` wrappers which restore the
pre-call state on `.error`.  External collaborators (Uniswap V3 pools,
Compound v2 cTokens, Comet, WETH9) are modelled at the points where the
contract calls them, parametrised by an `Env` of collaborator behaviours
(fees, swap quotes, error codes, exchange rates).  ERC-20 allowance
bookkeeping for the contract's `approve(…, type(uint256).max)` calls is
elided: the subsequent pulls are modelled directly.

A ghost `trace` field records, chronologically, the observable events of a
run (step entry, repayment, collateral movement, settlement, venue payback);
it mirrors the contract's own event emission and affects no control flow.
-/

namespace CometMigrator

/-- `type(uint256).max`, the sentinel meaning "use the live balance/debt". -/
def MAXU : Nat := 2 ^ 256 - 1

/-- Represents a given amount of collateral to migrate (struct `Collateral`). -/
structure Collateral where
  cToken : Nat
  amount : Nat
deriving DecidableEq

/-- One borrow to migrate (struct `BorrowData`). -/
structure BorrowData where
  borrowCToken : Nat
  borrowAmount : Nat
  pool : Nat
  isFlashLoan : Bool
deriving DecidableEq

/-- All data required to continue operation after a flash loan is initiated
(struct `MigrationCallbackData`); threaded through every callback. -/
structure MigrationCallbackData where
  user : Nat
  borrowData : List BorrowData
  collateral : List Collateral
  baseToken : Nat
  totalBaseToBorrow : Nat
  step : Nat
deriving DecidableEq

/-- Failure outcomes.  `Reentrancy`, `CompoundV2Error`, `SweepFailure` and
`CTokenTransferFailure` are the contract's declared custom errors;
`UnauthorizedCallback` is the `require(msg.sender == pool)` revert;
`IndexOutOfBounds` is the Solidity panic raised by an out-of-range array
access; `TransferRevert` is a reverting ERC-20 transfer (insufficient
balance); `VenueUnpaid` is the Uniswap pool's own post-callback repayment
check; `OutOfFuel` is an artefact of the fuelled recursion, never reached
from the entry points, which supply sufficient fuel. -/
inductive Err where
  | Reentrancy (loc : Nat)
  | CompoundV2Error (loc code : Nat)
  | SweepFailure (loc : Nat)
  | CTokenTransferFailure
  | UnauthorizedCallback
  | IndexOutOfBounds
  | TransferRevert
  | VenueUnpaid
  | OutOfFuel
deriving DecidableEq

/-- Ghost trace events, in chronological order of occurrence. -/
inductive Ev where
  | stepStart (step : Nat)
  | repay (step mkt used debtBefore : Nat)
  | collat (i cToken used liveBal : Nat)
  | settled (total : Nat)
  | paidVenue (step amt : Nat)
deriving DecidableEq

/-- Balances and contract storage.  `debt m u` is user `u`'s borrow balance
in v2 market `m`; `ctokenBal c u` a cToken balance; `erc20Bal t w` an ERC-20
balance; `ethBal w` a native balance; `cometSupplied u t` collateral supplied
to Comet on `u`'s behalf; `cometBorrowed u t` `u`'s borrow drawn from Comet. -/
structure State where
  inMigration : Nat
  debt : Nat → Nat → Nat
  ctokenBal : Nat → Nat → Nat
  erc20Bal : Nat → Nat → Nat
  ethBal : Nat → Nat
  cometSupplied : Nat → Nat → Nat
  cometBorrowed : Nat → Nat → Nat
  trace : List Ev

/-- Pointwise update of a one-argument map. -/
def upd1 (f : Nat → Nat) (a v : Nat) : Nat → Nat :=
  fun x => if x = a then v else f x

/-- Pointwise update of a two-argument map. -/
def upd2 (f : Nat → Nat → Nat) (a b v : Nat) : Nat → Nat → Nat :=
  fun x y => if x = a ∧ y = b then v else f x y

/-- Append a ghost trace event. -/
def State.logEv (s : State) (e : Ev) : State :=
  { s with trace := s.trace ++ [e] }

/-- A standard ERC-20 `transfer`/`pay`: reverts when the sender's balance is
insufficient, otherwise moves the amount. -/
def ercTransfer (s : State) (tok fromA toA amt : Nat) : Except Err State :=
  if s.erc20Bal tok fromA < amt then .error .TransferRevert
  else
    let f1 := upd2 s.erc20Bal tok fromA (s.erc20Bal tok fromA - amt)
    let f2 := upd2 f1 tok toA (f1 tok toA + amt)
    .ok { s with erc20Bal := f2 }

/-- The `uint256(int256)` cast: two's-complement wrap into `[0, 2^256)`. -/
def toU256 (i : Int) : Nat := (i % (2 ^ 256 : Int)).toNat

/-- Behaviour of the external collaborators and construction-time
configuration of the contract.  `underlying m` is market `m`'s underlying
ERC-20; `flashFee p a` the fee a pool quotes for flashing amount `a`;
`swapIn p out` the input a pool demands for an exact output `out`;
`repayErr`/`redeemErr` the error codes a cToken returns; `redeemOut c a` the
underlying paid out when redeeming `a` cTokens; `ctTransferOk` whether a
cToken `transferFrom` succeeds; `sendOk`/`erc20TransferOk` whether the sweep
transfers succeed. -/
structure Env where
  underlying : Nat → Nat
  cETH : Nat
  weth : Nat
  sweepee : Nat
  migrator : Nat
  poolToken0 : Nat → Nat
  poolToken1 : Nat → Nat
  flashFee : Nat → Nat → Nat
  swapIn : Nat → Nat → Nat
  repayErr : Nat → Nat → Nat → Nat
  redeemErr : Nat → Nat → Nat
  redeemOut : Nat → Nat → Nat
  ctTransferOk : Nat → Nat → Nat → Bool
  sendOk : Bool
  erc20TransferOk : Nat → Bool

/-- The error code a Compound v2 market's `repayBorrowBehalf` returns: the
market's own rejection code if nonzero, else the math-error code 9 when the
repayment exceeds the outstanding borrow (Compound's CarefulMath underflow),
else 0 (success). -/
def repayCodeOf (env : Env) (s : State) (mkt user amt : Nat) : Nat :=
  if env.repayErr mkt user amt ≠ 0 then env.repayErr mkt user amt
  else if s.debt mkt user < amt then 9 else 0

/-- Collaborator model of `CErc20.repayBorrowBehalf(user, amt)`: returns its
error code without effect when nonzero; on success pulls `amt` of the
underlying from the migrator (reverting if the balance is short, as the
token transfer inside the market would) and reduces the borrow balance. -/
def repayBorrowBehalf (env : Env) (s : State) (mkt user amt : Nat) :
    Except Err (Nat × State) :=
  let code := repayCodeOf env s mkt user amt
  if code ≠ 0 then .ok (code, s)
  else
    let tok := env.underlying mkt
    if s.erc20Bal tok env.migrator < amt then .error .TransferRevert
    else .ok (0, { s with
      debt := upd2 s.debt mkt user (s.debt mkt user - amt),
      erc20Bal := upd2 s.erc20Bal tok env.migrator
        (s.erc20Bal tok env.migrator - amt) })

/-- The sentinel-resolution loop at the top of `migrate` (lines 1419-1431):
each requested amount of `type(uint256).max` is replaced by the account's
current debt in that market, read at entry. -/
def resolveBorrows (user : Nat) (debt : Nat → Nat → Nat) (bds : List BorrowData) :
    List BorrowData :=
  bds.map fun bd =>
    if bd.borrowAmount = MAXU
      then { bd with borrowAmount := debt bd.borrowCToken user } else bd

/-- The fee-inclusive amount one leg owes its venue: principal plus the
pool's flash fee for a loan leg, or the pool's quoted input amount (as the
callback's wrapped `uint256` cast observes it) for a swap leg. -/
def legOwed (env : Env) (bd : BorrowData) : Nat :=
  if bd.isFlashLoan then bd.borrowAmount + env.flashFee bd.pool bd.borrowAmount
  else env.swapIn bd.pool bd.borrowAmount % 2 ^ 256

/-- Sum of the fee-inclusive leg amounts of steps `k` and later. -/
def owedFrom (env : Env) (bds : List BorrowData) (k : Nat) : Nat :=
  ((bds.drop k).map (legOwed env)).sum

/-- Sum of the repay amounts directed at market `m` by steps `k` and later. -/
def repayFrom (bds : List BorrowData) (k m : Nat) : Nat :=
  (((bds.drop k).filter fun bd => bd.borrowCToken == m).map
    BorrowData.borrowAmount).sum

/-- The venue-payback events a run of steps `k, k+1, …` appends, in
chronological (unwind, i.e. reverse-step) order. -/
def paidSpecAux (env : Env) (k : Nat) : List BorrowData → List (Nat × Nat)
  | [] => []
  | bd :: rest => paidSpecAux env (k + 1) rest ++ [(k, legOwed env bd)]

/-- `paidSpecAux` applied to the plan suffix from step `k`. -/
def paidSpec (env : Env) (bds : List BorrowData) (k : Nat) : List (Nat × Nat) :=
  paidSpecAux env k (bds.drop k)

/-- Projection of a trace to its scheduling events (step entries and the
settlement), preserving order. -/
def schedOf (tr : List Ev) : List Ev :=
  tr.filter fun e => match e with
    | .stepStart _ => true
    | .settled _ => true
    | _ => false

/-- Projection of a trace to its venue-payback events `(step, amount)`. -/
def paidOf (tr : List Ev) : List (Nat × Nat) :=
  tr.filterMap fun e => match e with
    | .paidVenue i a => some (i, a)
    | _ => none

/-- The asset a collateral item ends up as before being supplied to Comet:
WETH for `cETH` (after wrapping), else the cToken's underlying. -/
def underlyingFor (env : Env) (c : Collateral) : Nat :=
  if c.cToken = env.cETH then env.weth else env.underlying c.cToken

/-- The transfer amount a collateral item resolves to against state `s`:
the user's live cToken balance for the sentinel, else the literal amount. -/
def resolvedCollat (s : State) (user : Nat) (c : Collateral) : Nat :=
  if c.amount = MAXU then s.ctokenBal c.cToken user else c.amount

/-- The collateral loop of `migrateCollateralAndBorrow` (lines 1614-1655):
for each item, `transferFrom` the resolved amount from the user, redeem the
contract's whole cToken balance, wrap native proceeds for `cETH`, and supply
the contract's whole underlying balance to Comet on the user's behalf.
`i` is the running index used in the `CompoundV2Error(1 + i, …)` location
(the source's `uint8` wrap above 255 items is not modelled). -/
def migrateCollaterals (env : Env) (user : Nat) :
    Nat → List Collateral → State → Except Err State
  | _, [], s => .ok s
  | i, c :: rest, s =>
    -- **CALL** `cToken.transferFrom(user, address(this), amount == max ? balanceOf(user) : amount)`
    let liveBal := s.ctokenBal c.cToken user
    let resolved := resolvedCollat s user c
    if ¬(env.ctTransferOk c.cToken user resolved = true ∧ resolved ≤ liveBal) then
      .error .CTokenTransferFailure
    else
      let bal1 := upd2 s.ctokenBal c.cToken user (liveBal - resolved)
      let bal2 := upd2 bal1 c.cToken env.migrator (bal1 c.cToken env.migrator + resolved)
      let s := { s with ctokenBal := bal2 }
      let s := s.logEv (.collat i c.cToken resolved liveBal)
      -- **CALL** `cToken.redeem(cToken.balanceOf(address(this)))`
      let redeemAmt := s.ctokenBal c.cToken env.migrator
      let err := env.redeemErr c.cToken redeemAmt
      if err ≠ 0 then .error (.CompoundV2Error (1 + i) err)
      else
        let out := env.redeemOut c.cToken redeemAmt
        let s := { s with
          ctokenBal := upd2 s.ctokenBal c.cToken env.migrator
            (s.ctokenBal c.cToken env.migrator - redeemAmt) }
        -- redeem proceeds: native asset for cETH, else the underlying ERC-20
        let s :=
          if c.cToken = env.cETH then
            { s with ethBal := upd1 s.ethBal env.migrator (s.ethBal env.migrator + out) }
          else
            { s with erc20Bal := upd2 s.erc20Bal (env.underlying c.cToken) env.migrator
                                   (s.erc20Bal (env.underlying c.cToken) env.migrator + out) }
        -- **WHEN** `cToken == cETH`: `weth.deposit{value: address(this).balance}()`
        let underlyingTok := if c.cToken = env.cETH then env.weth else env.underlying c.cToken
        let s :=
          if c.cToken = env.cETH then
            let v := s.ethBal env.migrator
            { s with
              ethBal := upd1 s.ethBal env.migrator 0,
              erc20Bal := upd2 s.erc20Bal env.weth env.migrator
                (s.erc20Bal env.weth env.migrator + v) }
          else s
        -- `underlying.approve(address(comet), max)`: allowance bookkeeping elided
        -- **CALL** `comet.supplyTo(user, underlying, underlying.balanceOf(address(this)))`
        let supplyAmt := s.erc20Bal underlyingTok env.migrator
        let s := { s with
          erc20Bal := upd2 s.erc20Bal underlyingTok env.migrator
            (s.erc20Bal underlyingTok env.migrator - supplyAmt),
          cometSupplied := upd2 s.cometSupplied user underlyingTok
            (s.cometSupplied user underlyingTok + supplyAmt) }
        migrateCollaterals env user (i + 1) rest s

/-- `migrateCollateralAndBorrow` (lines 1612-1665): process the collateral,
then `comet.withdrawFrom(user, address(this), baseToken, borrowAmountWithFee)`
(drawing the settlement total as new debt on the user's Comet position and
crediting the tokens to the contract) and emit the completion record. -/
def migrateCollateralAndBorrow (env : Env) (s : State)
    (migrationData : MigrationCallbackData) (borrowAmountWithFee : Nat) :
    Except Err State :=
  match migrateCollaterals env migrationData.user 0 migrationData.collateral s with
  | .error e => .error e
  | .ok s =>
    let s := { s with
      cometBorrowed := upd2 s.cometBorrowed migrationData.user migrationData.baseToken
        (s.cometBorrowed migrationData.user migrationData.baseToken + borrowAmountWithFee),
      erc20Bal := upd2 s.erc20Bal migrationData.baseToken env.migrator
        (s.erc20Bal migrationData.baseToken env.migrator + borrowAmountWithFee) }
    -- **EMIT** `Migrated(user, collateral, 0, borrowAmountWithFee)`
    .ok (s.logEv (.settled borrowAmountWithFee))

mutual

/-- `flashLoanOrSwap` (lines 1589-1610) together with the collaborator model
of the Uniswap V3 pool it calls: the pool pays out the requested liquidity,
synchronously re-enters the recorded callback, and afterwards requires
payment of principal plus fee (loan) or of its quoted input amount (swap). -/
def flashLoanOrSwapF (env : Env) :
    Nat → State → List BorrowData → Nat → MigrationCallbackData → Except Err State
  | 0, _, _, _, _ => .error .OutOfFuel
  | fuel + 1, s, borrowData, step, callbackData =>
    match borrowData[step]? with
    | none => .error .IndexOutOfBounds
    | some initialBorrowData =>
      let borrowToken := env.underlying initialBorrowData.borrowCToken
      let pool := initialBorrowData.pool
      let isPoolToken0 : Bool := env.poolToken0 pool == borrowToken
      let repayAmount := initialBorrowData.borrowAmount
      if initialBorrowData.isFlashLoan then
        -- **CALL** `pool.flash(address(this), isP0 ? amt : 0, isP0 ? 0 : amt, data)`
        let t0 := env.poolToken0 pool
        let t1 := env.poolToken1 pool
        let amt0 := if isPoolToken0 then repayAmount else 0
        let amt1 := if isPoolToken0 then 0 else repayAmount
        let fee0 := env.flashFee pool amt0
        let fee1 := env.flashFee pool amt1
        let b0 := s.erc20Bal t0 pool
        let b1 := s.erc20Bal t1 pool
        match ercTransfer s t0 pool env.migrator amt0 with
        | .error e => .error e
        | .ok s =>
          match ercTransfer s t1 pool env.migrator amt1 with
          | .error e => .error e
          | .ok s =>
            match uniswapV3FlashCallbackF env fuel pool fee0 fee1 callbackData s with
            | .error e => .error e
            | .ok s =>
              if s.erc20Bal t0 pool < b0 + fee0 ∨ s.erc20Bal t1 pool < b1 + fee1
                then .error .VenueUnpaid else .ok s
      else
        -- **CALL** `pool.swap(address(this), !isP0, -int256(repayAmount), limit, data)`
        -- (exact-output swap; the price limit allows maximal slippage and is
        -- absorbed into the pool's quoted input amount `swapIn`)
        let t0 := env.poolToken0 pool
        let t1 := env.poolToken1 pool
        let outTok := if isPoolToken0 then t0 else t1
        let inTok := if isPoolToken0 then t1 else t0
        let required := env.swapIn pool repayAmount
        let bIn := s.erc20Bal inTok pool
        match ercTransfer s outTok pool env.migrator repayAmount with
        | .error e => .error e
        | .ok s =>
          let amount0Delta : Int := if isPoolToken0 then -(repayAmount : Int) else (required : Int)
          let amount1Delta : Int := if isPoolToken0 then (required : Int) else -(repayAmount : Int)
          match uniswapV3SwapCallbackF env fuel pool amount0Delta amount1Delta callbackData s with
          | .error e => .error e
          | .ok s =>
            if s.erc20Bal inTok pool < bIn + required then .error .VenueUnpaid else .ok s
  termination_by structural fuel _ _ _ _ => fuel

/-- `uniswapV3FlashCallback` (lines 1465-1523), fuelled.  `caller` is
`msg.sender`. -/
def uniswapV3FlashCallbackF (env : Env) :
    Nat → Nat → Nat → Nat → MigrationCallbackData → State → Except Err State
  | 0, _, _, _, _, _ => .error .OutOfFuel
  | fuel + 1, caller, fee0, fee1, migrationCallbackData, s =>
    -- **REQUIRE** `inMigration == 1`
    if s.inMigration ≠ 1 then .error (.Reentrancy 1)
    else
      match migrationCallbackData.borrowData[migrationCallbackData.step]? with
      | none => .error .IndexOutOfBounds
      | some currentBorrowData =>
        -- **REQUIRE** `msg.sender == address(currentBorrowData.pool)`
        if caller ≠ currentBorrowData.pool then .error .UnauthorizedCallback
        else
          let borrowToken := env.underlying currentBorrowData.borrowCToken
          let repayAmount := currentBorrowData.borrowAmount
          let isPoolToken0 : Bool := env.poolToken0 currentBorrowData.pool == borrowToken
          -- **BIND** `borrowAmountWithFee = repayAmount + (isP0 ? fee0 : fee1)`
          let borrowAmountWithFee := repayAmount + (if isPoolToken0 then fee0 else fee1)
          let totalBorrowAmount := migrationCallbackData.totalBaseToBorrow + borrowAmountWithFee
          -- `borrowToken.approve(borrowCToken, max)`: allowance elided
          let s := s.logEv (.stepStart migrationCallbackData.step)
          let debtBefore := s.debt currentBorrowData.borrowCToken migrationCallbackData.user
          -- **CALL** `borrowCToken.repayBorrowBehalf(user, repayAmount)`
          match repayBorrowBehalf env s currentBorrowData.borrowCToken
              migrationCallbackData.user repayAmount with
          | .error e => .error e
          | .ok (err, s) =>
            if err ≠ 0 then .error (.CompoundV2Error 0 err)
            else
              let s := s.logEv
                (.repay migrationCallbackData.step currentBorrowData.borrowCToken
                  repayAmount debtBefore)
              -- last step: settle; otherwise recurse into the next acquisition
              let isLastStep :=
                migrationCallbackData.borrowData.length - 1 ≤ migrationCallbackData.step
              let next :=
                if isLastStep then
                  migrateCollateralAndBorrow env s migrationCallbackData totalBorrowAmount
                else
                  flashLoanOrSwapF env fuel s migrationCallbackData.borrowData
                    (migrationCallbackData.step + 1)
                    { migrationCallbackData with
                      totalBaseToBorrow := totalBorrowAmount,
                      step := migrationCallbackData.step + 1 }
              match next with
              | .error e => .error e
              | .ok s =>
                -- **CALL** `borrowToken.transfer(pool, borrowAmountWithFee)` --
                -- only this leg's fee-inclusive amount, not the running total
                match ercTransfer s borrowToken env.migrator currentBorrowData.pool
                    borrowAmountWithFee with
                | .error e => .error e
                | .ok s =>
                  .ok (s.logEv (.paidVenue migrationCallbackData.step borrowAmountWithFee))
  termination_by structural fuel _ _ _ _ _ => fuel

/-- `uniswapV3SwapCallback` (lines 1525-1586), fuelled. -/
def uniswapV3SwapCallbackF (env : Env) :
    Nat → Nat → Int → Int → MigrationCallbackData → State → Except Err State
  | 0, _, _, _, _, _ => .error .OutOfFuel
  | fuel + 1, caller, amount0Delta, amount1Delta, migrationCallbackData, s =>
    -- **REQUIRE** `inMigration == 1`
    if s.inMigration ≠ 1 then .error (.Reentrancy 1)
    else
      match migrationCallbackData.borrowData[migrationCallbackData.step]? with
      | none => .error .IndexOutOfBounds
      | some currentBorrowData =>
        -- **REQUIRE** `msg.sender == address(currentBorrowData.pool)`
        if caller ≠ currentBorrowData.pool then .error .UnauthorizedCallback
        else
          let borrowToken := env.underlying currentBorrowData.borrowCToken
          let repayAmount := currentBorrowData.borrowAmount
          let isPoolToken0 : Bool := env.poolToken0 currentBorrowData.pool == borrowToken
          -- `uint256(isP0 ? amount1Delta : amount0Delta)`: the owed input side
          let baseBorrowAmount := toU256 (if isPoolToken0 then amount1Delta else amount0Delta)
          let totalBorrowAmount := migrationCallbackData.totalBaseToBorrow + baseBorrowAmount
          let s := s.logEv (.stepStart migrationCallbackData.step)
          let debtBefore := s.debt currentBorrowData.borrowCToken migrationCallbackData.user
          -- **CALL** `borrowCToken.repayBorrowBehalf(user, repayAmount)`
          match repayBorrowBehalf env s currentBorrowData.borrowCToken
              migrationCallbackData.user repayAmount with
          | .error e => .error e
          | .ok (err, s) =>
            if err ≠ 0 then .error (.CompoundV2Error 0 err)
            else
              let s := s.logEv
                (.repay migrationCallbackData.step currentBorrowData.borrowCToken
                  repayAmount debtBefore)
              let isLastStep :=
                migrationCallbackData.borrowData.length - 1 ≤ migrationCallbackData.step
              let next :=
                if isLastStep then
                  migrateCollateralAndBorrow env s migrationCallbackData totalBorrowAmount
                else
                  flashLoanOrSwapF env fuel s migrationCallbackData.borrowData
                    (migrationCallbackData.step + 1)
                    { migrationCallbackData with
                      totalBaseToBorrow := totalBorrowAmount,
                      step := migrationCallbackData.step + 1 }
              match next with
              | .error e => .error e
              | .ok s =>
                -- `repayToken = isP0 ? token1 : token0`;
                -- **CALL** `repayToken.transfer(pool, baseBorrowAmount)`
                let repayToken :=
                  if isPoolToken0 then env.poolToken1 currentBorrowData.pool
                  else env.poolToken0 currentBorrowData.pool
                match ercTransfer s repayToken env.migrator currentBorrowData.pool
                    baseBorrowAmount with
                | .error e => .error e
                | .ok s =>
                  .ok (s.logEv (.paidVenue migrationCallbackData.step baseBorrowAmount))
  termination_by structural fuel _ _ _ _ _ => fuel

end

/-- Fuel sufficient for any chain over `bds`: each step consumes one unit in
`flashLoanOrSwapF` and one in the callback. -/
def fuelFor (bds : List BorrowData) : Nat := 2 * bds.length + 2

/-- `migrate(collateral, borrowData, baseToken)` (lines 1407-1456), called by
`user` (= `msg.sender`): guard check, guard increment, sentinel resolution,
initial context at step 0 and total 0, the step chain, guard decrement. -/
def migrate (env : Env) (user : Nat) (collateral : List Collateral)
    (borrowData : List BorrowData) (baseToken : Nat) (s : State) : Except Err State :=
  -- **REQUIRE** `inMigration == 0`
  if s.inMigration ≠ 0 then .error (.Reentrancy 0)
  else
    -- **STORE** `inMigration += 1`
    let s1 : State := { s with inMigration := s.inMigration + 1 }
    -- sentinel resolution loop, reading `borrowBalanceCurrent(user)` live
    let resolved := resolveBorrows user s1.debt borrowData
    let callbackData : MigrationCallbackData :=
      { user := user, borrowData := resolved, collateral := collateral,
        baseToken := baseToken, totalBaseToBorrow := 0, step := 0 }
    match flashLoanOrSwapF env (fuelFor resolved) s1 resolved 0 callbackData with
    | .error e => .error e
    | .ok s2 =>
      -- **STORE** `inMigration -= 1`
      .ok { s2 with inMigration := s2.inMigration - 1 }

/-- Transaction semantics of `migrate`: a revert restores the pre-call state. -/
def migrateTx (env : Env) (user : Nat) (collateral : List Collateral)
    (borrowData : List BorrowData) (baseToken : Nat) (s : State) : State :=
  match migrate env user collateral borrowData baseToken s with
  | .ok s2 => s2
  | .error _ => s

/-- The flash-loan callback as an external entry point (fuel chosen to cover
any continuation of the carried plan). -/
def uniswapV3FlashCallback (env : Env) (caller fee0 fee1 : Nat)
    (data : MigrationCallbackData) (s : State) : Except Err State :=
  uniswapV3FlashCallbackF env (fuelFor data.borrowData) caller fee0 fee1 data s

/-- Transaction semantics of the flash-loan callback entry point. -/
def uniswapV3FlashCallbackTx (env : Env) (caller fee0 fee1 : Nat)
    (data : MigrationCallbackData) (s : State) : State :=
  match uniswapV3FlashCallback env caller fee0 fee1 data s with
  | .ok s2 => s2
  | .error _ => s

/-- The swap callback as an external entry point. -/
def uniswapV3SwapCallback (env : Env) (caller : Nat) (amount0Delta amount1Delta : Int)
    (data : MigrationCallbackData) (s : State) : Except Err State :=
  uniswapV3SwapCallbackF env (fuelFor data.borrowData) caller amount0Delta amount1Delta data s

/-- Transaction semantics of the swap callback entry point. -/
def uniswapV3SwapCallbackTx (env : Env) (caller : Nat) (amount0Delta amount1Delta : Int)
    (data : MigrationCallbackData) (s : State) : State :=
  match uniswapV3SwapCallback env caller amount0Delta amount1Delta data s with
  | .ok s2 => s2
  | .error _ => s

/-- `sweep(token)` (lines 1671-1689): requires the guard idle; sends the
whole native balance to `sweepee` for the zero token, else transfers the
whole ERC-20 balance; a failed send/transfer is a `SweepFailure`. -/
def sweep (env : Env) (token : Nat) (s : State) : Except Err State :=
  -- **REQUIRE** `inMigration == 0`
  if s.inMigration ≠ 0 then .error (.Reentrancy 2)
  else if token = 0 then
    -- **EXEC** `sweepee.send(address(this).balance)`
    if env.sendOk then
      let bal := s.ethBal env.migrator
      let e1 := upd1 s.ethBal env.migrator 0
      let e2 := upd1 e1 env.sweepee (e1 env.sweepee + bal)
      .ok { s with ethBal := e2 }
    else .error (.SweepFailure 0)
  else
    -- **CALL** `token.transfer(sweepee, token.balanceOf(address(this)))`
    if env.erc20TransferOk token then
      let bal := s.erc20Bal token env.migrator
      let f1 := upd2 s.erc20Bal token env.migrator 0
      let f2 := upd2 f1 token env.sweepee (f1 token env.sweepee + bal)
      .ok { s with erc20Bal := f2 }
    else .error (.SweepFailure 1)

/-- Transaction semantics of `sweep`. -/
def sweepTx (env : Env) (token : Nat) (s : State) : State :=
  match sweep env token s with
  | .ok s2 => s2
  | .error _ => s

mutual

/-- Modelled from the spec: the liquidity-acquisition step of spec sections
4.2 and 3, in which a `USE_CURRENT_BALANCE` repay amount "is resolved exactly
once, at the moment the corresponding step executes, using the live
balance/debt at that instant — never at plan-construction time".  The
resolution is performed here, against the debt live at this instant; the
continuation handler observes the same value, since the venue's token
delivery in between cannot change any debt.  Apart from the placement of the
sentinel resolution, identical to `flashLoanOrSwapF`.  Used only to compare
the source's resolution timing against the spec's. -/
def flashLoanOrSwapSpecT (env : Env) :
    Nat → State → List BorrowData → Nat → MigrationCallbackData → Except Err State
  | 0, _, _, _, _ => .error .OutOfFuel
  | fuel + 1, s, borrowData, step, callbackData =>
    match borrowData[step]? with
    | none => .error .IndexOutOfBounds
    | some initialBorrowData =>
      let borrowToken := env.underlying initialBorrowData.borrowCToken
      let pool := initialBorrowData.pool
      let isPoolToken0 : Bool := env.poolToken0 pool == borrowToken
      -- spec timing: resolve the sentinel now, from the live debt
      let repayAmount :=
        if initialBorrowData.borrowAmount = MAXU
          then s.debt initialBorrowData.borrowCToken callbackData.user
          else initialBorrowData.borrowAmount
      if initialBorrowData.isFlashLoan then
        let t0 := env.poolToken0 pool
        let t1 := env.poolToken1 pool
        let amt0 := if isPoolToken0 then repayAmount else 0
        let amt1 := if isPoolToken0 then 0 else repayAmount
        let fee0 := env.flashFee pool amt0
        let fee1 := env.flashFee pool amt1
        let b0 := s.erc20Bal t0 pool
        let b1 := s.erc20Bal t1 pool
        match ercTransfer s t0 pool env.migrator amt0 with
        | .error e => .error e
        | .ok s =>
          match ercTransfer s t1 pool env.migrator amt1 with
          | .error e => .error e
          | .ok s =>
            match uniswapV3FlashCallbackSpecT env fuel pool fee0 fee1 callbackData s with
            | .error e => .error e
            | .ok s =>
              if s.erc20Bal t0 pool < b0 + fee0 ∨ s.erc20Bal t1 pool < b1 + fee1
                then .error .VenueUnpaid else .ok s
      else
        let t0 := env.poolToken0 pool
        let t1 := env.poolToken1 pool
        let outTok := if isPoolToken0 then t0 else t1
        let inTok := if isPoolToken0 then t1 else t0
        let required := env.swapIn pool repayAmount
        let bIn := s.erc20Bal inTok pool
        match ercTransfer s outTok pool env.migrator repayAmount with
        | .error e => .error e
        | .ok s =>
          let amount0Delta : Int := if isPoolToken0 then -(repayAmount : Int) else (required : Int)
          let amount1Delta : Int := if isPoolToken0 then (required : Int) else -(repayAmount : Int)
          match uniswapV3SwapCallbackSpecT env fuel pool amount0Delta amount1Delta callbackData s with
          | .error e => .error e
          | .ok s =>
            if s.erc20Bal inTok pool < bIn + required then .error .VenueUnpaid else .ok s
  termination_by structural fuel _ _ _ _ => fuel

/-- Modelled from the spec: the continuation handler entered by the loan
variant, under spec resolution timing; identical to
`uniswapV3FlashCallbackF` except that the repay amount of the current step
is the one resolved at this step's execution instant (the live debt for the
sentinel — the same value its acquisition resolved, nothing in between
having touched any debt) and that it continues into `flashLoanOrSwapSpecT`. -/
def uniswapV3FlashCallbackSpecT (env : Env) :
    Nat → Nat → Nat → Nat → MigrationCallbackData → State → Except Err State
  | 0, _, _, _, _, _ => .error .OutOfFuel
  | fuel + 1, caller, fee0, fee1, migrationCallbackData, s =>
    if s.inMigration ≠ 1 then .error (.Reentrancy 1)
    else
      match migrationCallbackData.borrowData[migrationCallbackData.step]? with
      | none => .error .IndexOutOfBounds
      | some currentBorrowData =>
        if caller ≠ currentBorrowData.pool then .error .UnauthorizedCallback
        else
          let borrowToken := env.underlying currentBorrowData.borrowCToken
          let repayAmount :=
            if currentBorrowData.borrowAmount = MAXU
              then s.debt currentBorrowData.borrowCToken migrationCallbackData.user
              else currentBorrowData.borrowAmount
          let isPoolToken0 : Bool := env.poolToken0 currentBorrowData.pool == borrowToken
          let borrowAmountWithFee := repayAmount + (if isPoolToken0 then fee0 else fee1)
          let totalBorrowAmount := migrationCallbackData.totalBaseToBorrow + borrowAmountWithFee
          let s := s.logEv (.stepStart migrationCallbackData.step)
          let debtBefore := s.debt currentBorrowData.borrowCToken migrationCallbackData.user
          match repayBorrowBehalf env s currentBorrowData.borrowCToken
              migrationCallbackData.user repayAmount with
          | .error e => .error e
          | .ok (err, s) =>
            if err ≠ 0 then .error (.CompoundV2Error 0 err)
            else
              let s := s.logEv
                (.repay migrationCallbackData.step currentBorrowData.borrowCToken
                  repayAmount debtBefore)
              let isLastStep :=
                migrationCallbackData.borrowData.length - 1 ≤ migrationCallbackData.step
              let next :=
                if isLastStep then
                  migrateCollateralAndBorrow env s migrationCallbackData totalBorrowAmount
                else
                  flashLoanOrSwapSpecT env fuel s migrationCallbackData.borrowData
                    (migrationCallbackData.step + 1)
                    { migrationCallbackData with
                      totalBaseToBorrow := totalBorrowAmount,
                      step := migrationCallbackData.step + 1 }
              match next with
              | .error e => .error e
              | .ok s =>
                match ercTransfer s borrowToken env.migrator currentBorrowData.pool
                    borrowAmountWithFee with
                | .error e => .error e
                | .ok s =>
                  .ok (s.logEv (.paidVenue migrationCallbackData.step borrowAmountWithFee))
  termination_by structural fuel _ _ _ _ _ => fuel

/-- Modelled from the spec: the continuation handler entered by the swap
variant, under spec resolution timing; identical to `uniswapV3SwapCallbackF`
except for the at-step resolution of the repay amount and that it continues
into `flashLoanOrSwapSpecT`. -/
def uniswapV3SwapCallbackSpecT (env : Env) :
    Nat → Nat → Int → Int → MigrationCallbackData → State → Except Err State
  | 0, _, _, _, _, _ => .error .OutOfFuel
  | fuel + 1, caller, amount0Delta, amount1Delta, migrationCallbackData, s =>
    if s.inMigration ≠ 1 then .error (.Reentrancy 1)
    else
      match migrationCallbackData.borrowData[migrationCallbackData.step]? with
      | none => .error .IndexOutOfBounds
      | some currentBorrowData =>
        if caller ≠ currentBorrowData.pool then .error .UnauthorizedCallback
        else
          let borrowToken := env.underlying currentBorrowData.borrowCToken
          let repayAmount :=
            if currentBorrowData.borrowAmount = MAXU
              then s.debt currentBorrowData.borrowCToken migrationCallbackData.user
              else currentBorrowData.borrowAmount
          let isPoolToken0 : Bool := env.poolToken0 currentBorrowData.pool == borrowToken
          let baseBorrowAmount := toU256 (if isPoolToken0 then amount1Delta else amount0Delta)
          let totalBorrowAmount := migrationCallbackData.totalBaseToBorrow + baseBorrowAmount
          let s := s.logEv (.stepStart migrationCallbackData.step)
          let debtBefore := s.debt currentBorrowData.borrowCToken migrationCallbackData.user
          match repayBorrowBehalf env s currentBorrowData.borrowCToken
              migrationCallbackData.user repayAmount with
          | .error e => .error e
          | .ok (err, s) =>
            if err ≠ 0 then .error (.CompoundV2Error 0 err)
            else
              let s := s.logEv
                (.repay migrationCallbackData.step currentBorrowData.borrowCToken
                  repayAmount debtBefore)
              let isLastStep :=
                migrationCallbackData.borrowData.length - 1 ≤ migrationCallbackData.step
              let next :=
                if isLastStep then
                  migrateCollateralAndBorrow env s migrationCallbackData totalBorrowAmount
                else
                  flashLoanOrSwapSpecT env fuel s migrationCallbackData.borrowData
                    (migrationCallbackData.step + 1)
                    { migrationCallbackData with
                      totalBaseToBorrow := totalBorrowAmount,
                      step := migrationCallbackData.step + 1 }
              match next with
              | .error e => .error e
              | .ok s =>
                let repayToken :=
                  if isPoolToken0 then env.poolToken1 currentBorrowData.pool
                  else env.poolToken0 currentBorrowData.pool
                match ercTransfer s repayToken env.migrator currentBorrowData.pool
                    baseBorrowAmount with
                | .error e => .error e
                | .ok s =>
                  .ok (s.logEv (.paidVenue migrationCallbackData.step baseBorrowAmount))
  termination_by structural fuel _ _ _ _ _ => fuel

end

/-- Modelled from the spec: `migrate` under spec resolution timing — no
entry-time sentinel resolution; each step resolves its own amount when it
executes (section 4.1 minus the entry loop, section 4.2's at-step
resolution).  Used only to compare against `migrate`. -/
def migrateSpecT (env : Env) (user : Nat) (collateral : List Collateral)
    (borrowData : List BorrowData) (baseToken : Nat) (s : State) : Except Err State :=
  if s.inMigration ≠ 0 then .error (.Reentrancy 0)
  else
    let s1 : State := { s with inMigration := s.inMigration + 1 }
    let callbackData : MigrationCallbackData :=
      { user := user, borrowData := borrowData, collateral := collateral,
        baseToken := baseToken, totalBaseToBorrow := 0, step := 0 }
    match flashLoanOrSwapSpecT env (fuelFor borrowData) s1 borrowData 0 callbackData with
    | .error e => .error e
    | .ok s2 => .ok { s2 with inMigration := s2.inMigration - 1 }

/-- Whether an outcome is a success. -/
def isOk : Except Err State → Bool
  | .ok _ => true
  | .error _ => false

/-- The error of a failed outcome, if any. -/
def errOf : Except Err State → Option Err
  | .ok _ => none
  | .error e => some e

/-! ### Statement-level predicates -/

/-- Well-formedness of a migration's collateral against a state: pairwise
distinct cTokens and distinct resulting underlyings, no cTokens already held
by the contract, no native balance held by the contract, and a user distinct
from the contract address.  Under these, the per-item collateral effects are
expressible in closed form. -/
def CollatBase (env : Env) (ctx : MigrationCallbackData) (s : State) : Prop :=
  ctx.collateral.Pairwise (fun a b => a.cToken ≠ b.cToken)
  ∧ ctx.collateral.Pairwise (fun a b => underlyingFor env a ≠ underlyingFor env b)
  ∧ (∀ c ∈ ctx.collateral, s.ctokenBal c.cToken env.migrator = 0)
  ∧ s.ethBal env.migrator = 0
  ∧ ctx.user ≠ env.migrator

/-- The contract holds no ERC-20 balances at all in `s`. -/
def ercZero (env : Env) (s : State) : Prop := ∀ t, s.erc20Bal t env.migrator = 0

/-- The contract's only ERC-20 balance in `s` is `amt` of `dtok` (the
liquidity a venue just delivered). -/
def ercOnly (env : Env) (s : State) (dtok amt : Nat) : Prop :=
  ∀ t, s.erc20Bal t env.migrator = if t = dtok then amt else 0

/-- Per-item collateral outcome of a successful run from `s` to `s2`: each
item's resolved amount was covered, debited from the user's cToken balance,
and its redemption proceeds credited to the user's Comet collateral. -/
def CollatFacts (env : Env) (ctx : MigrationCallbackData) (s s2 : State) : Prop :=
  ∀ c ∈ ctx.collateral,
    resolvedCollat s ctx.user c ≤ s.ctokenBal c.cToken ctx.user
    ∧ s2.ctokenBal c.cToken ctx.user
        = s.ctokenBal c.cToken ctx.user - resolvedCollat s ctx.user c
    ∧ s2.cometSupplied ctx.user (underlyingFor env c)
        = s.cometSupplied ctx.user (underlyingFor env c)
          + env.redeemOut c.cToken (resolvedCollat s ctx.user c)

/-- Core outcome of a successful chain run covering steps `k, k+1, …` of the
plan in `ctx`, where `firstOwed` is the fee-inclusive amount of step `k`
itself: the guard is preserved; the user's debt in each market drops by
exactly the summed repay amounts of the remaining steps (which it covered);
the scheduling trace extends by the step entries `k, …, n-1` in order
followed by a single settlement of the accumulated total; the user's Comet
borrow grows by that total; and the venue-payback trace extends by exactly
the per-leg fee-inclusive amounts, in unwind order. -/
def ChainCore (env : Env) (ctx : MigrationCallbackData) (k firstOwed : Nat)
    (s s2 : State) : Prop :=
  s2.inMigration = s.inMigration
  ∧ (∀ m, s2.debt m ctx.user = s.debt m ctx.user - repayFrom ctx.borrowData k m
        ∧ repayFrom ctx.borrowData k m ≤ s.debt m ctx.user)
  ∧ schedOf s2.trace = schedOf s.trace
      ++ (List.range' k (ctx.borrowData.length - k)).map Ev.stepStart
      ++ [Ev.settled (ctx.totalBaseToBorrow + (firstOwed + owedFrom env ctx.borrowData (k + 1)))]
  ∧ s2.cometBorrowed ctx.user ctx.baseToken
      = s.cometBorrowed ctx.user ctx.baseToken
        + (ctx.totalBaseToBorrow + (firstOwed + owedFrom env ctx.borrowData (k + 1)))
  ∧ paidOf s2.trace = paidOf s.trace ++ (paidSpec env ctx.borrowData (k + 1) ++ [(k, firstOwed)])

/-- The statement proved about `flashLoanOrSwapF` at a given fuel, for
coherent calls (the list and step arguments are the ones of the context, as
at every call site). -/
def FlsStmt (env : Env) (fuel : Nat) : Prop :=
  ∀ (s : State) (ctx : MigrationCallbackData) (s2 : State),
    flashLoanOrSwapF env fuel s ctx.borrowData ctx.step ctx = .ok s2 →
    ∃ bd, ctx.borrowData[ctx.step]? = some bd
      ∧ ChainCore env ctx ctx.step (legOwed env bd) s s2
      ∧ ((CollatBase env ctx s ∧ ercZero env s) → CollatFacts env ctx s s2)

/-- The statement proved about `uniswapV3FlashCallbackF` at a given fuel. -/
def FcbStmt (env : Env) (fuel : Nat) : Prop :=
  ∀ (caller fee0 fee1 : Nat) (ctx : MigrationCallbackData) (s s2 : State),
    uniswapV3FlashCallbackF env fuel caller fee0 fee1 ctx s = .ok s2 →
    ∃ bd, ctx.borrowData[ctx.step]? = some bd
      ∧ ChainCore env ctx ctx.step
          (bd.borrowAmount +
            if env.poolToken0 bd.pool == env.underlying bd.borrowCToken then fee0 else fee1)
          s s2
      ∧ (∀ dtok, (CollatBase env ctx s ∧ ercOnly env s dtok bd.borrowAmount) →
           CollatFacts env ctx s s2)

/-- The statement proved about `uniswapV3SwapCallbackF` at a given fuel. -/
def ScbStmt (env : Env) (fuel : Nat) : Prop :=
  ∀ (caller : Nat) (a0 a1 : Int) (ctx : MigrationCallbackData) (s s2 : State),
    uniswapV3SwapCallbackF env fuel caller a0 a1 ctx s = .ok s2 →
    ∃ bd, ctx.borrowData[ctx.step]? = some bd
      ∧ ChainCore env ctx ctx.step
          (toU256 (if env.poolToken0 bd.pool == env.underlying bd.borrowCToken then a1 else a0))
          s s2
      ∧ (∀ dtok, (CollatBase env ctx s ∧ ercOnly env s dtok bd.borrowAmount) →
           CollatFacts env ctx s s2)

/-! ### Concrete scenarios -/

/-- Scenario A of the spec: one flash leg over the sentinel debt of market 1
plus one sentinel collateral item on cToken 2. -/
def envA : Env :=
  { underlying := fun m => if m = 1 then 5 else if m = 2 then 7 else 100 + m
    cETH := 99
    weth := 98
    sweepee := 3
    migrator := 0
    poolToken0 := fun _ => 5
    poolToken1 := fun _ => 6
    flashFee := fun p amt => if amt = 0 then 0 else if p = 21 then 3 else 2
    swapIn := fun _ amt => amt + 1
    repayErr := fun _ _ _ => 0
    redeemErr := fun _ _ => 0
    redeemOut := fun _ amt => amt
    ctTransferOk := fun _ _ _ => true
    sendOk := true
    erc20TransferOk := fun _ => true }

/-- Scenario A's initial chain state: the user owes 1000 in market 1 and
holds 500 of cToken 2; both pools are liquid in the base token. -/
def sA : State :=
  { inMigration := 0
    debt := fun m u => if m = 1 ∧ u = 10 then 1000 else 0
    ctokenBal := fun c u => if c = 2 ∧ u = 10 then 500 else 0
    erc20Bal := fun t w => if t = 5 ∧ (w = 21 ∨ w = 22) then 5000 else 0
    ethBal := fun _ => 0
    cometSupplied := fun _ _ => 0
    cometBorrowed := fun _ _ => 0
    trace := [] }

/-- Scenario A's plan: one sentinel flash leg on market 1 via pool 21. -/
def bdsA : List BorrowData := [⟨1, MAXU, 21, true⟩]

/-- Scenario A's collateral: the whole cToken-2 position. -/
def collatA : List Collateral := [⟨2, MAXU⟩]

/-- The state Scenario A's `migrate` transaction ends in. -/
def finalA : State := migrateTx envA 10 collatA bdsA 5 sA

/-- Scenario A's state with the guard already engaged. -/
def sG1 : State := { sA with inMigration := 1 }

/-- Scenario B of the spec: every market borrows the same base token 5. -/
def envB : Env := { envA with underlying := fun _ => 5 }

/-- Scenario B's initial state: debts 1000 (market 1) and 400 (market 2). -/
def sB : State :=
  { inMigration := 0
    debt := fun m u =>
      if u = 10 then (if m = 1 then 1000 else if m = 2 then 400 else 0) else 0
    ctokenBal := fun _ _ => 0
    erc20Bal := fun t w => if t = 5 ∧ (w = 21 ∨ w = 22) then 5000 else 0
    ethBal := fun _ => 0
    cometSupplied := fun _ _ => 0
    cometBorrowed := fun _ _ => 0
    trace := [] }

/-- Scenario B's plan: two flash legs via pools 21 (fee 3) and 22 (fee 2). -/
def bdsB : List BorrowData := [⟨1, 1000, 21, true⟩, ⟨2, 400, 22, true⟩]

/-- The state Scenario B's `migrate` transaction ends in. -/
def finalB : State := migrateTx envB 10 [] bdsB 5 sB

/-- A two-leg plan over one market where the second leg is a sentinel: the
flat fees keep the arithmetic visible, and the market accepts a repayment
only when it is exactly 600 (otherwise it echoes the amount as its error
code), so the error code reveals which amount the code submitted. -/
def envD : Env :=
  { underlying := fun _ => 5
    cETH := 99
    weth := 98
    sweepee := 3
    migrator := 0
    poolToken0 := fun _ => 5
    poolToken1 := fun _ => 6
    flashFee := fun _ _ => 0
    swapIn := fun _ amt => amt
    repayErr := fun _ _ amt => if amt = 600 then 0 else amt
    redeemErr := fun _ _ => 0
    redeemOut := fun _ amt => amt
    ctTransferOk := fun _ _ _ => true
    sendOk := true
    erc20TransferOk := fun _ => true }

/-- The sentinel-timing scenario's initial state: a flat debt of 1000. -/
def sD : State :=
  { inMigration := 0
    debt := fun _ _ => 1000
    ctokenBal := fun _ _ => 0
    erc20Bal := fun _ _ => 5000
    ethBal := fun _ => 0
    cometSupplied := fun _ _ => 0
    cometBorrowed := fun _ _ => 0
    trace := [] }

/-- The sentinel-timing plan: step 0 repays 600 of market 1, step 1 asks for
the sentinel on the same market.  At entry the debt reads 1000; by the time
step 1 executes, only 400 is left. -/
def bdsD : List BorrowData := [⟨1, 600, 21, true⟩, ⟨1, MAXU, 22, true⟩]

/-- Scenario B's collaborators with market 2 rejecting every repayment with
error code 5. -/
def envE : Env := { envB with repayErr := fun m _ _ => if m = 2 then 5 else 0 }

/-- A callback context for step 0 of Scenario B's plan. -/
def ctxB : MigrationCallbackData :=
  { user := 10, borrowData := bdsB, collateral := [], baseToken := 5,
    totalBaseToBorrow := 0, step := 0 }

/-- Scenario B's state as the in-flight callbacks see it (guard engaged). -/
def sBg : State := { sB with inMigration := 1 }

/-- A callback context for step 1 of Scenario B's plan, with step 0's
fee-inclusive amount already accumulated. -/
def ctxE : MigrationCallbackData :=
  { user := 10, borrowData := bdsB, collateral := [], baseToken := 5,
    totalBaseToBorrow := 1003, step := 1 }

/-- A state with stray balances parked on the contract: 77 of token 5 and 9
of the native asset. -/
def sSw : State := { sA with
  erc20Bal := fun t w => if t = 5 ∧ w = 0 then 77 else 0
  ethBal := fun w => if w = 0 then 9 else 0 }

@[simp] theorem upd1_same (f : Nat → Nat) (a v : Nat) : upd1 f a v a = v := by
  simp [upd1]

@[simp] theorem upd2_same (f : Nat → Nat → Nat) (a b v : Nat) : upd2 f a b v a b = v := by
  simp [upd2]

theorem upd1_other (f : Nat → Nat) (a v x : Nat) (h : x ≠ a) : upd1 f a v x = f x := by
  simp [upd1, h]

theorem upd2_other (f : Nat → Nat → Nat) (a b v x y : Nat) (h : ¬(x = a ∧ y = b)) :
    upd2 f a b v x y = f x y := by
  simp only [upd2, if_neg h]

theorem upd2_ne_fst {f : Nat → Nat → Nat} {a b v x y : Nat} (h : x ≠ a) :
    upd2 f a b v x y = f x y :=
  upd2_other f a b v x y fun hx => h hx.1

theorem upd2_ne_snd {f : Nat → Nat → Nat} {a b v x y : Nat} (h : y ≠ b) :
    upd2 f a b v x y = f x y :=
  upd2_other f a b v x y fun hx => h hx.2

theorem upd1_ne {f : Nat → Nat} {a v x : Nat} (h : x ≠ a) : upd1 f a v x = f x :=
  upd1_other f a v x h

/-! ### List and trace helper lemmas -/

theorem drop_eq_cons {α : Type} : ∀ {l : List α} {k : Nat} {a : α},
    l[k]? = some a → l.drop k = a :: l.drop (k + 1)
  | [], k, a, h => by simp at h
  | x :: l, 0, a, h => by simp_all
  | x :: l, k + 1, a, h => by
    simpa using drop_eq_cons (l := l) (k := k) (a := a) (by simpa using h)

theorem drop_len_le {α : Type} {l : List α} {k : Nat} (h : l.length ≤ k) :
    l.drop k = [] :=
  List.drop_eq_nil_of_le h

theorem owedFrom_cons {env : Env} {bds : List BorrowData} {k : Nat} {bd : BorrowData}
    (h : bds[k]? = some bd) :
    owedFrom env bds k = legOwed env bd + owedFrom env bds (k + 1) := by
  simp [owedFrom, drop_eq_cons h]

theorem owedFrom_last {env : Env} {bds : List BorrowData} {k : Nat}
    (h : bds.length ≤ k + 1) : owedFrom env bds (k + 1) = 0 := by
  simp [owedFrom, drop_len_le h]

theorem repayFrom_cons {bds : List BorrowData} {k m : Nat} {bd : BorrowData}
    (h : bds[k]? = some bd) :
    repayFrom bds k m
      = (if bd.borrowCToken = m then bd.borrowAmount else 0) + repayFrom bds (k + 1) m := by
  simp only [repayFrom, drop_eq_cons h, List.filter_cons]
  by_cases hm : bd.borrowCToken = m <;> simp [hm]

theorem repayFrom_last {bds : List BorrowData} {k m : Nat}
    (h : bds.length ≤ k + 1) : repayFrom bds (k + 1) m = 0 := by
  simp [repayFrom, drop_len_le h]

theorem paidSpec_cons {env : Env} {bds : List BorrowData} {k : Nat} {bd : BorrowData}
    (h : bds[k]? = some bd) :
    paidSpec env bds k = paidSpec env bds (k + 1) ++ [(k, legOwed env bd)] := by
  simp [paidSpec, drop_eq_cons h, paidSpecAux]

theorem paidSpec_last {env : Env} {bds : List BorrowData} {k : Nat}
    (h : bds.length ≤ k + 1) : paidSpec env bds (k + 1) = [] := by
  simp [paidSpec, drop_len_le h, paidSpecAux]

theorem range'_split {k n : Nat} (h : k < n) :
    List.range' k (n - k) = k :: List.range' (k + 1) (n - (k + 1)) := by
  have : n - k = (n - (k + 1)) + 1 := by omega
  rw [this, List.range'_succ]

@[simp] theorem schedOf_nil : schedOf [] = [] := rfl

@[simp] theorem schedOf_append (a b : List Ev) :
    schedOf (a ++ b) = schedOf a ++ schedOf b := by
  simp [schedOf, List.filter_append]

@[simp] theorem schedOf_stepStart (k : Nat) :
    schedOf [Ev.stepStart k] = [Ev.stepStart k] := rfl

@[simp] theorem schedOf_settled (t : Nat) : schedOf [Ev.settled t] = [Ev.settled t] := rfl

@[simp] theorem schedOf_repay (a b c d : Nat) : schedOf [Ev.repay a b c d] = [] := rfl

@[simp] theorem schedOf_collat (a b c d : Nat) : schedOf [Ev.collat a b c d] = [] := rfl

@[simp] theorem schedOf_paidVenue (a b : Nat) : schedOf [Ev.paidVenue a b] = [] := rfl

@[simp] theorem paidOf_nil : paidOf [] = [] := rfl

@[simp] theorem paidOf_append (a b : List Ev) :
    paidOf (a ++ b) = paidOf a ++ paidOf b := by
  simp [paidOf, List.filterMap_append]

@[simp] theorem paidOf_stepStart (k : Nat) : paidOf [Ev.stepStart k] = [] := rfl

@[simp] theorem paidOf_settled (t : Nat) : paidOf [Ev.settled t] = [] := rfl

@[simp] theorem paidOf_repay (a b c d : Nat) : paidOf [Ev.repay a b c d] = [] := rfl

@[simp] theorem paidOf_collat (a b c d : Nat) : paidOf [Ev.collat a b c d] = [] := rfl

@[simp] theorem paidOf_paidVenue (a b : Nat) :
    paidOf [Ev.paidVenue a b] = [(a, b)] := rfl

@[simp] theorem logEv_inMigration (s : State) (e : Ev) :
    (s.logEv e).inMigration = s.inMigration := rfl

@[simp] theorem logEv_debt (s : State) (e : Ev) : (s.logEv e).debt = s.debt := rfl

@[simp] theorem logEv_ctokenBal (s : State) (e : Ev) :
    (s.logEv e).ctokenBal = s.ctokenBal := rfl

@[simp] theorem logEv_erc20Bal (s : State) (e : Ev) :
    (s.logEv e).erc20Bal = s.erc20Bal := rfl

@[simp] theorem logEv_ethBal (s : State) (e : Ev) : (s.logEv e).ethBal = s.ethBal := rfl

@[simp] theorem logEv_cometSupplied (s : State) (e : Ev) :
    (s.logEv e).cometSupplied = s.cometSupplied := rfl

@[simp] theorem logEv_cometBorrowed (s : State) (e : Ev) :
    (s.logEv e).cometBorrowed = s.cometBorrowed := rfl

@[simp] theorem logEv_trace (s : State) (e : Ev) :
    (s.logEv e).trace = s.trace ++ [e] := rfl

/-! ### Effect lemmas for the primitive operations -/

theorem ercTransfer_ok {s s2 : State} {tok a b amt : Nat}
    (h : ercTransfer s tok a b amt = .ok s2) :
    amt ≤ s.erc20Bal tok a
    ∧ s2 = { s with
              erc20Bal := upd2 (upd2 s.erc20Bal tok a (s.erc20Bal tok a - amt)) tok b
                            (upd2 s.erc20Bal tok a (s.erc20Bal tok a - amt) tok b + amt) } := by
  unfold ercTransfer at h
  split at h
  · exact absurd h (by simp)
  · exact ⟨by omega, by injection h with h2; exact h2.symm⟩

theorem repayCodeOf_zero_le {env : Env} {s : State} {mkt user amt : Nat}
    (h : repayCodeOf env s mkt user amt = 0) : amt ≤ s.debt mkt user := by
  unfold repayCodeOf at h
  split at h
  · omega
  · split at h
    · omega
    · omega

theorem repayBorrowBehalf_ok {env : Env} {s s2 : State} {mkt user amt code : Nat}
    (h : repayBorrowBehalf env s mkt user amt = .ok (code, s2)) :
    code = repayCodeOf env s mkt user amt
    ∧ (code ≠ 0 → s2 = s)
    ∧ (code = 0 →
        amt ≤ s.debt mkt user
        ∧ amt ≤ s.erc20Bal (env.underlying mkt) env.migrator
        ∧ s2 = { s with
            debt := upd2 s.debt mkt user (s.debt mkt user - amt),
            erc20Bal := upd2 s.erc20Bal (env.underlying mkt) env.migrator
              (s.erc20Bal (env.underlying mkt) env.migrator - amt) }) := by
  simp only [repayBorrowBehalf] at h
  split at h
  · next hc =>
    injection h with h2
    injection h2 with hcode hstate
    subst hcode; subst hstate
    exact ⟨rfl, fun _ => rfl, fun h0 => absurd h0 hc⟩
  · next hc =>
    split at h
    · exact absurd h (by simp)
    · next hbal =>
      injection h with h2
      injection h2 with hcode hstate
      subst hcode; subst hstate
      have hc0 : repayCodeOf env s mkt user amt = 0 := by
        by_contra hx; exact hc hx
      refine ⟨hc0.symm, fun hne => absurd rfl hne, fun _ => ?_⟩
      exact ⟨repayCodeOf_zero_le hc0, by omega, rfl⟩

/-! ### The collateral loop and settlement -/

theorem collatLoopOut (env : Env) (user : Nat) (items : List Collateral) :
    ∀ (i : Nat) (s s2 : State),
      migrateCollaterals env user i items s = .ok s2 →
      s2.inMigration = s.inMigration
      ∧ s2.debt = s.debt
      ∧ s2.cometBorrowed = s.cometBorrowed
      ∧ schedOf s2.trace = schedOf s.trace
      ∧ paidOf s2.trace = paidOf s.trace
      ∧ (∀ ct u, (∀ c ∈ items, c.cToken ≠ ct) → s2.ctokenBal ct u = s.ctokenBal ct u)
      ∧ (∀ u t, (u ≠ user ∨ ∀ c ∈ items, underlyingFor env c ≠ t) →
          s2.cometSupplied u t = s.cometSupplied u t)
      ∧ ((items.Pairwise fun a b => a.cToken ≠ b.cToken) →
         (items.Pairwise fun a b => underlyingFor env a ≠ underlyingFor env b) →
         (∀ c ∈ items, s.ctokenBal c.cToken env.migrator = 0) →
         s.ethBal env.migrator = 0 →
         (∀ t, s.erc20Bal t env.migrator = 0) →
         user ≠ env.migrator →
         ∀ c ∈ items,
           resolvedCollat s user c ≤ s.ctokenBal c.cToken user
           ∧ s2.ctokenBal c.cToken user
               = s.ctokenBal c.cToken user - resolvedCollat s user c
           ∧ s2.cometSupplied user (underlyingFor env c)
               = s.cometSupplied user (underlyingFor env c)
                 + env.redeemOut c.cToken (resolvedCollat s user c)) := by
  induction items with
  | nil =>
    intro i s s2 h
    simp only [migrateCollaterals] at h
    injection h with h
    subst h
    refine ⟨rfl, rfl, rfl, rfl, rfl, fun _ _ _ => rfl, fun _ _ _ => rfl, ?_⟩
    intro _ _ _ _ _ _ c hc
    simp at hc
  | cons c rest ih =>
    intro i s s2 h
    simp only [migrateCollaterals, State.logEv] at h
    split at h
    · exact absurd h (by simp)
    next htr =>
      rw [not_not] at htr
      split at h
      · exact absurd h (by simp)
      next hred =>
        rw [not_not] at hred
        by_cases hcE : c.cToken = env.cETH
        · simp only [if_pos hcE, upd2_same, upd1_same, Nat.sub_self] at h
          obtain ⟨ih1, ih2, ih3, ih4, ih5, ihfr1, ihfr2, ihcond⟩ := ih (i + 1) _ s2 h
          have huFc : underlyingFor env c = env.weth := by simp [underlyingFor, hcE]
          refine ⟨ih1, ih2, ih3, by rw [ih4]; simp, by rw [ih5]; simp, ?_, ?_, ?_⟩
          · intro ct u hct
            have hcne : ct ≠ c.cToken := fun hx => (hct c (List.mem_cons_self c rest)) hx.symm
            rw [ihfr1 ct u fun c' hc' => hct c' (List.mem_cons_of_mem c hc')]
            dsimp only
            rw [upd2_ne_fst hcne, upd2_ne_fst hcne, upd2_ne_fst hcne]
          · intro u t hyp
            rw [ihfr2 u t (hyp.imp id fun hh c' hc' => hh c' (List.mem_cons_of_mem c hc'))]
            dsimp only
            rcases hyp with hu | hall
            · rw [upd2_ne_fst hu]
            · have hwt : t ≠ env.weth :=
                fun hx => (hall c (List.mem_cons_self c rest)) (huFc.trans hx.symm)
              rw [upd2_ne_snd hwt]
          · intro hp1 hp2 hct0 heth herc hum
            rw [List.pairwise_cons] at hp1 hp2
            obtain ⟨hp1h, hp1t⟩ := hp1
            obtain ⟨hp2h, hp2t⟩ := hp2
            have hmu : env.migrator ≠ user := Ne.symm hum
            have hct0h : s.ctokenBal c.cToken env.migrator = 0 :=
              hct0 c (List.mem_cons_self c rest)
            intro c' hc'
            rcases List.mem_cons.mp hc' with hch | hctail
            · subst hch
              refine ⟨htr.2, ?_, ?_⟩
              · rw [ihfr1 c'.cToken user fun a ha => fun hx => (hp1h a ha) hx.symm]
                dsimp only
                rw [upd2_ne_snd hum, upd2_ne_snd hum, upd2_same]
              · rw [ihfr2 user (underlyingFor env c')
                  (Or.inr fun a ha => fun hx => (hp2h a ha) hx.symm)]
                dsimp only
                rw [huFc, upd2_same]
                simp only [upd2_ne_snd hmu, hct0h, herc env.weth, heth]
                simp
            · have hcc' : c'.cToken ≠ c.cToken := fun hx => (hp1h c' hctail) hx.symm
              have huF' : underlyingFor env c' ≠ env.weth :=
                fun hx => (hp2h c' hctail) (huFc.trans hx.symm)
              have hthis := ihcond hp1t hp2t
                (by intro a ha
                    dsimp only
                    have hane : a.cToken ≠ c.cToken := fun hx => (hp1h a ha) hx.symm
                    rw [upd2_ne_fst hane, upd2_ne_fst hane, upd2_ne_fst hane]
                    exact hct0 a (List.mem_cons_of_mem c ha))
                (by dsimp only; rw [upd1_same])
                (by intro t
                    dsimp only
                    by_cases ht : t = env.weth
                    · subst ht; rw [upd2_same]
                    · rw [upd2_ne_fst ht, upd2_ne_fst ht]
                      exact herc t)
                hum c' hctail
              dsimp only at hthis
              simp only [resolvedCollat, upd2_ne_fst hcc', upd2_ne_snd huF'] at hthis
              simp only [resolvedCollat]
              exact hthis
        · simp only [if_neg hcE, upd2_same, upd1_same, Nat.sub_self] at h
          obtain ⟨ih1, ih2, ih3, ih4, ih5, ihfr1, ihfr2, ihcond⟩ := ih (i + 1) _ s2 h
          have huFc : underlyingFor env c = env.underlying c.cToken := by
            simp [underlyingFor, hcE]
          refine ⟨ih1, ih2, ih3, by rw [ih4]; simp, by rw [ih5]; simp, ?_, ?_, ?_⟩
          · intro ct u hct
            have hcne : ct ≠ c.cToken := fun hx => (hct c (List.mem_cons_self c rest)) hx.symm
            rw [ihfr1 ct u fun c' hc' => hct c' (List.mem_cons_of_mem c hc')]
            dsimp only
            rw [upd2_ne_fst hcne, upd2_ne_fst hcne, upd2_ne_fst hcne]
          · intro u t hyp
            rw [ihfr2 u t (hyp.imp id fun hh c' hc' => hh c' (List.mem_cons_of_mem c hc'))]
            dsimp only
            rcases hyp with hu | hall
            · rw [upd2_ne_fst hu]
            · have hwt : t ≠ env.underlying c.cToken :=
                fun hx => (hall c (List.mem_cons_self c rest)) (huFc.trans hx.symm)
              rw [upd2_ne_snd hwt]
          · intro hp1 hp2 hct0 heth herc hum
            rw [List.pairwise_cons] at hp1 hp2
            obtain ⟨hp1h, hp1t⟩ := hp1
            obtain ⟨hp2h, hp2t⟩ := hp2
            have hmu : env.migrator ≠ user := Ne.symm hum
            have hct0h : s.ctokenBal c.cToken env.migrator = 0 :=
              hct0 c (List.mem_cons_self c rest)
            intro c' hc'
            rcases List.mem_cons.mp hc' with hch | hctail
            · subst hch
              refine ⟨htr.2, ?_, ?_⟩
              · rw [ihfr1 c'.cToken user fun a ha => fun hx => (hp1h a ha) hx.symm]
                dsimp only
                rw [upd2_ne_snd hum, upd2_ne_snd hum, upd2_same]
              · rw [ihfr2 user (underlyingFor env c')
                  (Or.inr fun a ha => fun hx => (hp2h a ha) hx.symm)]
                dsimp only
                rw [huFc, upd2_same]
                simp only [upd2_ne_snd hmu, hct0h, herc (env.underlying c'.cToken)]
                simp
            · have hcc' : c'.cToken ≠ c.cToken := fun hx => (hp1h c' hctail) hx.symm
              have huF' : underlyingFor env c' ≠ env.underlying c.cToken :=
                fun hx => (hp2h c' hctail) (huFc.trans hx.symm)
              have hthis := ihcond hp1t hp2t
                (by intro a ha
                    dsimp only
                    have hane : a.cToken ≠ c.cToken := fun hx => (hp1h a ha) hx.symm
                    rw [upd2_ne_fst hane, upd2_ne_fst hane, upd2_ne_fst hane]
                    exact hct0 a (List.mem_cons_of_mem c ha))
                (by dsimp only; exact heth)
                (by intro t
                    dsimp only
                    by_cases ht : t = env.underlying c.cToken
                    · subst ht; rw [upd2_same]
                    · rw [upd2_ne_fst ht, upd2_ne_fst ht]
                      exact herc t)
                hum c' hctail
              dsimp only at hthis
              simp only [resolvedCollat, upd2_ne_fst hcc', upd2_ne_snd huF'] at hthis
              simp only [resolvedCollat]
              exact hthis

theorem mcbOut {env : Env} {ctx : MigrationCallbackData} {T : Nat} {s s2 : State}
    (h : migrateCollateralAndBorrow env s ctx T = .ok s2) :
    s2.inMigration = s.inMigration
    ∧ s2.debt = s.debt
    ∧ schedOf s2.trace = schedOf s.trace ++ [Ev.settled T]
    ∧ paidOf s2.trace = paidOf s.trace
    ∧ s2.cometBorrowed ctx.user ctx.baseToken = s.cometBorrowed ctx.user ctx.baseToken + T
    ∧ ((CollatBase env ctx s ∧ ercZero env s) → CollatFacts env ctx s s2) := by
  simp only [migrateCollateralAndBorrow, State.logEv] at h
  split at h
  · exact absurd h (by simp)
  next sl hloop =>
    injection h with h
    obtain ⟨l1, l2, l3, l4, l5, lfr1, lfr2, lcond⟩ :=
      collatLoopOut env ctx.user ctx.collateral 0 s sl hloop
    subst h
    refine ⟨l1, l2, ?_, ?_, ?_, ?_⟩
    · simp [l4]
    · simp [l5]
    · dsimp only
      rw [upd2_same, l3]
    · rintro ⟨⟨hb1, hb2, hb3, hb4, hb5⟩, hz⟩
      have hfacts := lcond hb1 hb2 hb3 hb4 hz hb5
      intro c hc
      obtain ⟨f1, f2, f3⟩ := hfacts c hc
      exact ⟨f1, by dsimp only; exact f2, by dsimp only; exact f3⟩

/-- Delivering `amt` of `tok` from a pool into an empty-handed contract
leaves the contract holding exactly `amt` of `tok` (also when the "pool" is
the contract itself, in which case the transfer forces `amt = 0`). -/
theorem ercTransfer_pay_profile {env : Env} {s s2 : State} {tok pool amt : Nat}
    (h : ercTransfer s tok pool env.migrator amt = .ok s2)
    (hz : ercZero env s) : ercOnly env s2 tok amt := by
  obtain ⟨hle, rfl⟩ := ercTransfer_ok h
  intro t
  dsimp only
  by_cases ht : t = tok
  · subst ht
    rw [upd2_same]
    by_cases hpm : env.migrator = pool
    · have hv : upd2 s.erc20Bal t pool (s.erc20Bal t pool - amt) t env.migrator
          = s.erc20Bal t pool - amt := by
        simp [upd2, hpm]
      rw [hv]
      have h0 : s.erc20Bal t pool = 0 := by rw [← hpm]; exact hz t
      simp [h0]
    · rw [upd2_other _ _ _ _ _ _ (fun hx => hpm hx.2)]
      simp [hz t]
  · rw [upd2_ne_fst ht, upd2_ne_fst ht]
    simp [hz t, ht]

/-- Overwriting an entry of a map with its own value changes nothing. -/
theorem upd2_write_same (f : Nat → Nat → Nat) (a b : Nat) :
    upd2 f a b (f a b) = f := by
  funext x y
  unfold upd2
  split
  · next hc => rw [hc.1, hc.2]
  · rfl

/-- An ERC-20 transfer of amount 0 does not change any balance. -/
theorem ercTransfer_zero_bal {s s2 : State} {tok a b : Nat}
    (h : ercTransfer s tok a b 0 = .ok s2) : ∀ x y, s2.erc20Bal x y = s.erc20Bal x y := by
  obtain ⟨-, rfl⟩ := ercTransfer_ok h
  intro x y
  dsimp only
  simp only [Nat.sub_zero, Nat.add_zero, upd2_write_same]

/-- Debiting from the contract the exact amount that a just-delivered profile
holds (or debiting from a token it holds none of, forcing the amount to 0)
returns the contract to empty hands. -/
theorem ercOnly_debit_zero {env : Env} {s : State} {dtok amt bTok : Nat}
    (hz : ercOnly env s dtok amt) (hle : amt ≤ s.erc20Bal bTok env.migrator) :
    ∀ t, upd2 s.erc20Bal bTok env.migrator
      (s.erc20Bal bTok env.migrator - amt) t env.migrator = 0 := by
  intro t
  by_cases ht : t = bTok
  · subst ht
    rw [upd2_same, hz t]
    by_cases htd : t = dtok <;> simp [htd]
  · rw [upd2_ne_fst ht, hz t]
    have hb := hz bTok
    by_cases htd : t = dtok
    · subst htd
      by_cases hbd : bTok = t
      · exact absurd hbd.symm ht
      · rw [hb] at hle
        simp [hbd] at hle
        simp [hle]
    · simp [htd]

/-! ### The master chain lemma -/

theorem getElem?_some_lt {α : Type} : ∀ {l : List α} {k : Nat} {a : α},
    l[k]? = some a → k < l.length
  | [], k, a, h => by simp at h
  | x :: l, 0, a, h => by simp
  | x :: l, k + 1, a, h => by
    have := getElem?_some_lt (l := l) (k := k) (a := a) (by simpa using h)
    simpa using Nat.succ_lt_succ this

/-- Outcome of the continuation taken after a step's repayment: either the
settlement (last step) or the recursive acquisition of the next step. -/
theorem contTail (env : Env) (f : Nat) (IH : FlsStmt env f)
    (ctx : MigrationCallbackData) (bd : BorrowData) (sR : State) (s3 : State)
    (owedK : Nat) (hbd : ctx.borrowData[ctx.step]? = some bd)
    (hnext : (if ctx.borrowData.length - 1 ≤ ctx.step
        then migrateCollateralAndBorrow env sR ctx (ctx.totalBaseToBorrow + owedK)
        else flashLoanOrSwapF env f sR ctx.borrowData (ctx.step + 1)
          { ctx with totalBaseToBorrow := ctx.totalBaseToBorrow + owedK,
                     step := ctx.step + 1 }) = .ok s3) :
    s3.inMigration = sR.inMigration
    ∧ (∀ m, s3.debt m ctx.user = sR.debt m ctx.user - repayFrom ctx.borrowData (ctx.step + 1) m
          ∧ repayFrom ctx.borrowData (ctx.step + 1) m ≤ sR.debt m ctx.user)
    ∧ schedOf s3.trace = schedOf sR.trace
        ++ (List.range' (ctx.step + 1) (ctx.borrowData.length - (ctx.step + 1))).map Ev.stepStart
        ++ [Ev.settled (ctx.totalBaseToBorrow + (owedK + owedFrom env ctx.borrowData (ctx.step + 1)))]
    ∧ s3.cometBorrowed ctx.user ctx.baseToken
        = sR.cometBorrowed ctx.user ctx.baseToken
          + (ctx.totalBaseToBorrow + (owedK + owedFrom env ctx.borrowData (ctx.step + 1)))
    ∧ paidOf s3.trace = paidOf sR.trace ++ paidSpec env ctx.borrowData (ctx.step + 1)
    ∧ ((CollatBase env ctx sR ∧ ercZero env sR) → CollatFacts env ctx sR s3) := by
  have hk : ctx.step < ctx.borrowData.length := getElem?_some_lt hbd
  by_cases hLast : ctx.borrowData.length - 1 ≤ ctx.step
  · rw [if_pos hLast] at hnext
    have hlen : ctx.borrowData.length ≤ ctx.step + 1 := by omega
    obtain ⟨m1, m2, m3, m4, m5, mc⟩ := mcbOut hnext
    have hO : owedFrom env ctx.borrowData (ctx.step + 1) = 0 := owedFrom_last hlen
    have hrange : ctx.borrowData.length - (ctx.step + 1) = 0 := by omega
    refine ⟨m1, ?_, ?_, ?_, ?_, mc⟩
    · intro m
      rw [repayFrom_last hlen, m2]
      omega
    · rw [m3, hO, hrange]
      simp
    · rw [hO, Nat.add_zero]
      exact m5
    · rw [m4, paidSpec_last hlen]
      simp
  · rw [if_neg hLast] at hnext
    obtain ⟨bd2, hbd2, core2, cond2⟩ := IH sR
      { ctx with totalBaseToBorrow := ctx.totalBaseToBorrow + owedK, step := ctx.step + 1 }
      s3 hnext
    dsimp only at hbd2
    obtain ⟨c1, c2, c3, c4, c5⟩ := core2
    dsimp only at c2 c3 c4 c5
    have hArith : ctx.totalBaseToBorrow + owedK
        + (legOwed env bd2 + owedFrom env ctx.borrowData (ctx.step + 1 + 1))
        = ctx.totalBaseToBorrow + (owedK + owedFrom env ctx.borrowData (ctx.step + 1)) := by
      rw [owedFrom_cons hbd2]
      omega
    rw [hArith] at c3 c4
    refine ⟨c1, fun m => c2 m, c3, c4, ?_, fun hh => cond2 hh⟩
    rw [paidSpec_cons hbd2]
    exact c5

theorem toU256_natCast (n : Nat) : toU256 (n : Int) = n % 2 ^ 256 := by
  unfold toU256
  norm_cast

/-- The master characterisation of the step chain, by induction on fuel:
whatever fuel is supplied, a successful run satisfies `ChainCore` (and the
collateral facts under the well-formedness preconditions). -/
theorem chainMaster (env : Env) : ∀ fuel : Nat,
    FlsStmt env fuel ∧ FcbStmt env fuel ∧ ScbStmt env fuel := by
  intro fuel
  induction fuel with
  | zero =>
    refine ⟨?_, ?_, ?_⟩
    · intro s ctx s2 h
      simp [flashLoanOrSwapF] at h
    · intro caller fee0 fee1 ctx s s2 h
      simp [uniswapV3FlashCallbackF] at h
    · intro caller a0 a1 ctx s s2 h
      simp [uniswapV3SwapCallbackF] at h
  | succ f ihAll =>
    obtain ⟨ihFls, ihFcb, ihScb⟩ := ihAll
    refine ⟨?_, ?_, ?_⟩
    -- `flashLoanOrSwap` with the venue model around the callback
    · intro s ctx s2 h
      simp only [flashLoanOrSwapF] at h
      split at h
      · exact absurd h (by simp)
      next bd hbd =>
        by_cases hP : (env.poolToken0 bd.pool == env.underlying bd.borrowCToken) = true
        all_goals split at h
        -- flash-loan leg, borrow token on the token0 side
        · next hfl =>
          split at h
          · exact absurd h (by simp)
          next s1a hpay0 =>
            split at h
            · exact absurd h (by simp)
            next s1 hpay1 =>
              split at h
              · exact absurd h (by simp)
              next sc hcb =>
                split at h
                · exact absurd h (by simp)
                next hcheck =>
                  injection h with h
                  subst h
                  obtain ⟨bd', hbd', core, cond⟩ := ihFcb _ _ _ ctx s1 sc hcb
                  rw [hbd] at hbd'
                  injection hbd' with hbdEq
                  subst hbdEq
                  obtain ⟨hle0, hs1a⟩ := ercTransfer_ok hpay0
                  subst hs1a
                  obtain ⟨hle1, hs1⟩ := ercTransfer_ok hpay1
                  subst hs1
                  obtain ⟨c1, c2, c3, c4, c5⟩ := core
                  dsimp only at c1 c2 c3 c4 c5
                  simp only [if_pos hP] at c3 c4 c5
                  have hleg : bd.borrowAmount + env.flashFee bd.pool bd.borrowAmount
                      = legOwed env bd := by
                    simp [legOwed, hfl]
                  rw [hleg] at c3 c4 c5
                  refine ⟨bd, hbd, ⟨c1, c2, c3, c4, c5⟩, ?_⟩
                  rintro ⟨hbase, hz⟩
                  have hprof := ercTransfer_pay_profile hpay0 hz
                  have hprof1 : ercOnly env _ (env.poolToken0 bd.pool) bd.borrowAmount :=
                    fun t => (ercTransfer_zero_bal hpay1 t env.migrator).trans (hprof t)
                  exact cond (env.poolToken0 bd.pool) ⟨hbase, hprof1⟩
        -- swap leg, borrow token on the token0 side
        · next hfl =>
          split at h
          · exact absurd h (by simp)
          next s1 hpay =>
            split at h
            · exact absurd h (by simp)
            next sc hcb =>
              split at h
              · exact absurd h (by simp)
              next hcheck =>
                injection h with h
                subst h
                obtain ⟨bd', hbd', core, cond⟩ := ihScb _ _ _ ctx s1 sc hcb
                rw [hbd] at hbd'
                injection hbd' with hbdEq
                subst hbdEq
                obtain ⟨hle1, hs1⟩ := ercTransfer_ok hpay
                subst hs1
                obtain ⟨c1, c2, c3, c4, c5⟩ := core
                dsimp only at c1 c2 c3 c4 c5
                simp only [if_pos hP] at c3 c4 c5
                have hleg : toU256 ((env.swapIn bd.pool bd.borrowAmount : Nat) : Int)
                    = legOwed env bd := by
                  simp [legOwed, hfl, toU256_natCast]
                rw [hleg] at c3 c4 c5
                refine ⟨bd, hbd, ⟨c1, c2, c3, c4, c5⟩, ?_⟩
                rintro ⟨hbase, hz⟩
                have hprof := ercTransfer_pay_profile hpay hz
                exact cond (env.poolToken0 bd.pool) ⟨hbase, hprof⟩
        -- flash-loan leg, borrow token on the token1 side
        · next hfl =>
          split at h
          · exact absurd h (by simp)
          next s1a hpay0 =>
            split at h
            · exact absurd h (by simp)
            next s1 hpay1 =>
              split at h
              · exact absurd h (by simp)
              next sc hcb =>
                split at h
                · exact absurd h (by simp)
                next hcheck =>
                  injection h with h
                  subst h
                  obtain ⟨bd', hbd', core, cond⟩ := ihFcb _ _ _ ctx s1 sc hcb
                  rw [hbd] at hbd'
                  injection hbd' with hbdEq
                  subst hbdEq
                  obtain ⟨hle0, hs1a⟩ := ercTransfer_ok hpay0
                  subst hs1a
                  obtain ⟨hle1, hs1⟩ := ercTransfer_ok hpay1
                  subst hs1
                  obtain ⟨c1, c2, c3, c4, c5⟩ := core
                  dsimp only at c1 c2 c3 c4 c5
                  simp only [if_neg hP] at c3 c4 c5
                  have hleg : bd.borrowAmount + env.flashFee bd.pool bd.borrowAmount
                      = legOwed env bd := by
                    simp [legOwed, hfl]
                  rw [hleg] at c3 c4 c5
                  refine ⟨bd, hbd, ⟨c1, c2, c3, c4, c5⟩, ?_⟩
                  rintro ⟨hbase, hz⟩
                  have hz1 : ercZero env _ :=
                    fun t => (ercTransfer_zero_bal hpay0 t env.migrator).trans (hz t)
                  have hprof := ercTransfer_pay_profile hpay1 hz1
                  exact cond (env.poolToken1 bd.pool) ⟨hbase, hprof⟩
        -- swap leg, borrow token on the token1 side
        · next hfl =>
          split at h
          · exact absurd h (by simp)
          next s1 hpay =>
            split at h
            · exact absurd h (by simp)
            next sc hcb =>
              split at h
              · exact absurd h (by simp)
              next hcheck =>
                injection h with h
                subst h
                obtain ⟨bd', hbd', core, cond⟩ := ihScb _ _ _ ctx s1 sc hcb
                rw [hbd] at hbd'
                injection hbd' with hbdEq
                subst hbdEq
                obtain ⟨hle1, hs1⟩ := ercTransfer_ok hpay
                subst hs1
                obtain ⟨c1, c2, c3, c4, c5⟩ := core
                dsimp only at c1 c2 c3 c4 c5
                simp only [if_neg hP] at c3 c4 c5
                have hleg : toU256 ((env.swapIn bd.pool bd.borrowAmount : Nat) : Int)
                    = legOwed env bd := by
                  simp [legOwed, hfl, toU256_natCast]
                rw [hleg] at c3 c4 c5
                refine ⟨bd, hbd, ⟨c1, c2, c3, c4, c5⟩, ?_⟩
                rintro ⟨hbase, hz⟩
                have hprof := ercTransfer_pay_profile hpay hz
                exact cond (env.poolToken1 bd.pool) ⟨hbase, hprof⟩
    -- the flash-loan continuation handler
    · intro caller fee0 fee1 ctx s s2 h
      simp only [uniswapV3FlashCallbackF, State.logEv] at h
      split at h
      · exact absurd h (by simp)
      next hguard =>
        split at h
        · exact absurd h (by simp)
        next bd hbd =>
          split at h
          · exact absurd h (by simp)
          next hcaller =>
            split at h
            · exact absurd h (by simp)
            next code sR hrep =>
              split at h
              · exact absurd h (by simp)
              next hcode =>
                split at h
                · exact absurd h (by simp)
                next s3 hnext =>
                  split at h
                  · exact absurd h (by simp)
                  next sP hpay =>
                    injection h with h
                    subst h
                    have hcode0 : code = 0 := by omega
                    subst hcode0
                    obtain ⟨-, -, hok0⟩ := repayBorrowBehalf_ok hrep
                    obtain ⟨hled, hleb, hsR⟩ := hok0 rfl
                    subst hsR
                    obtain ⟨t1, t2, t3, t4, t5, t6⟩ :=
                      contTail env f ihFls ctx bd _ s3 _ hbd hnext
                    dsimp only at t1 t2 t3 t4 t5 hled hleb
                    obtain ⟨hple, hsP⟩ := ercTransfer_ok hpay
                    subst hsP
                    have hk : ctx.step < ctx.borrowData.length := getElem?_some_lt hbd
                    refine ⟨bd, hbd, ⟨?_, ?_, ?_, ?_, ?_⟩, ?_⟩
                    · dsimp only
                      exact t1
                    · intro m
                      have h2 := t2 m
                      dsimp only
                      rw [repayFrom_cons hbd]
                      by_cases hm : bd.borrowCToken = m
                      · subst hm
                        rw [upd2_same] at h2
                        have hif : (if bd.borrowCToken = bd.borrowCToken
                            then bd.borrowAmount else 0) = bd.borrowAmount := if_pos rfl
                        rw [hif]
                        omega
                      · rw [upd2_ne_fst fun hx => hm hx.symm] at h2
                        have hif : (if bd.borrowCToken = m
                            then bd.borrowAmount else 0) = 0 := if_neg hm
                        rw [hif]
                        omega
                    · dsimp only
                      rw [range'_split hk]
                      simp only [schedOf_append, schedOf_stepStart, schedOf_repay,
                        schedOf_paidVenue, List.map_cons, List.append_nil] at t3 ⊢
                      simp [t3, List.append_assoc]
                    · dsimp only
                      exact t4
                    · dsimp only
                      simp only [paidOf_append, paidOf_stepStart, paidOf_repay,
                        paidOf_paidVenue, List.append_nil] at t5 ⊢
                      simp [t5, List.append_assoc]
                    · rintro dtok ⟨hbase, honly⟩
                      exact t6 ⟨hbase, fun t => ercOnly_debit_zero honly hleb t⟩
    -- the swap continuation handler
    · intro caller a0 a1 ctx s s2 h
      simp only [uniswapV3SwapCallbackF, State.logEv] at h
      split at h
      · exact absurd h (by simp)
      next hguard =>
        split at h
        · exact absurd h (by simp)
        next bd hbd =>
          split at h
          · exact absurd h (by simp)
          next hcaller =>
            split at h
            · exact absurd h (by simp)
            next code sR hrep =>
              split at h
              · exact absurd h (by simp)
              next hcode =>
                split at h
                · exact absurd h (by simp)
                next s3 hnext =>
                  split at h
                  · exact absurd h (by simp)
                  next sP hpay =>
                    injection h with h
                    subst h
                    have hcode0 : code = 0 := by omega
                    subst hcode0
                    obtain ⟨-, -, hok0⟩ := repayBorrowBehalf_ok hrep
                    obtain ⟨hled, hleb, hsR⟩ := hok0 rfl
                    subst hsR
                    obtain ⟨t1, t2, t3, t4, t5, t6⟩ :=
                      contTail env f ihFls ctx bd _ s3 _ hbd hnext
                    dsimp only at t1 t2 t3 t4 t5 hled hleb
                    obtain ⟨hple, hsP⟩ := ercTransfer_ok hpay
                    subst hsP
                    have hk : ctx.step < ctx.borrowData.length := getElem?_some_lt hbd
                    refine ⟨bd, hbd, ⟨?_, ?_, ?_, ?_, ?_⟩, ?_⟩
                    · dsimp only
                      exact t1
                    · intro m
                      have h2 := t2 m
                      dsimp only
                      rw [repayFrom_cons hbd]
                      by_cases hm : bd.borrowCToken = m
                      · subst hm
                        rw [upd2_same] at h2
                        have hif : (if bd.borrowCToken = bd.borrowCToken
                            then bd.borrowAmount else 0) = bd.borrowAmount := if_pos rfl
                        rw [hif]
                        omega
                      · rw [upd2_ne_fst fun hx => hm hx.symm] at h2
                        have hif : (if bd.borrowCToken = m
                            then bd.borrowAmount else 0) = 0 := if_neg hm
                        rw [hif]
                        omega
                    · dsimp only
                      rw [range'_split hk]
                      simp only [schedOf_append, schedOf_stepStart, schedOf_repay,
                        schedOf_paidVenue, List.map_cons, List.append_nil] at t3 ⊢
                      simp [t3, List.append_assoc]
                    · dsimp only
                      exact t4
                    · dsimp only
                      simp only [paidOf_append, paidOf_stepStart, paidOf_repay,
                        paidOf_paidVenue, List.append_nil] at t5 ⊢
                      simp [t5, List.append_assoc]
                    · rintro dtok ⟨hbase, honly⟩
                      exact t6 ⟨hbase, fun t => ercOnly_debit_zero honly hleb t⟩

/-! ### Plan-level helper lemmas -/

theorem resolveBorrows_length (user : Nat) (debt : Nat → Nat → Nat)
    (bds : List BorrowData) : (resolveBorrows user debt bds).length = bds.length := by
  simp [resolveBorrows]

theorem resolveBorrows_idem (user : Nat) (debt : Nat → Nat → Nat)
    (bds : List BorrowData) :
    resolveBorrows user debt (resolveBorrows user debt bds)
      = resolveBorrows user debt bds := by
  induction bds with
  | nil => rfl
  | cons bd rest ih =>
    simp only [resolveBorrows, List.map_cons] at ih ⊢
    refine congrArg₂ _ ?_ ih
    by_cases hm : bd.borrowAmount = MAXU
    · simp [hm]
    · simp [hm]

theorem owedFrom_zero_sum (env : Env) (bds : List BorrowData) :
    owedFrom env bds 0 = (bds.map (legOwed env)).sum := by
  simp [owedFrom]

theorem paidSpecAux_mem (env : Env) :
    ∀ (l : List BorrowData) (k j : Nat) (bd : BorrowData),
      l[j]? = some bd → (k + j, legOwed env bd) ∈ paidSpecAux env k l := by
  intro l
  induction l with
  | nil => intro k j bd h; simp at h
  | cons x rest ih =>
    intro k j bd h
    match j with
    | 0 =>
      simp only [List.getElem?_cons_zero, Option.some.injEq] at h
      subst h
      simp [paidSpecAux]
    | j + 1 =>
      have hmem := ih (k + 1) j bd (by simpa using h)
      have harith : k + (j + 1) = (k + 1) + j := by omega
      rw [harith]
      simp only [paidSpecAux, List.mem_append]
      exact Or.inl hmem

theorem paidSpec_mem (env : Env) (bds : List BorrowData) (j : Nat)
    (bd : BorrowData) (h : bds[j]? = some bd) :
    (j, legOwed env bd) ∈ paidSpec env bds 0 := by
  have := paidSpecAux_mem env bds 0 j bd h
  simpa [paidSpec] using this

theorem resolvedCollat_guardBump (s : State) (u : Nat) (c : Collateral) :
    resolvedCollat { s with inMigration := s.inMigration + 1 } u c
      = resolvedCollat s u c := rfl

/-- Every fact a successful `migrate` run certifies, phrased at the entry
point: the guard was idle and is idle again; each market's debt dropped by
the summed repay amounts of the entry-resolved plan (which it covered); the
scheduling trace gained the step entries `0, …, n-1` in order and one
settlement of the full owed total; the user's Comet borrow grew by that
total; the venues were paid per leg; and, under the collateral
well-formedness conditions, each collateral item moved in full. -/
theorem migrateOut {env : Env} {user : Nat} {coll : List Collateral}
    {bds : List BorrowData} {base : Nat} {s sF : State}
    (h : migrate env user coll bds base s = .ok sF) :
    s.inMigration = 0
    ∧ sF.inMigration = 0
    ∧ (∀ m, sF.debt m user
          = s.debt m user - repayFrom (resolveBorrows user s.debt bds) 0 m
        ∧ repayFrom (resolveBorrows user s.debt bds) 0 m ≤ s.debt m user)
    ∧ schedOf sF.trace = schedOf s.trace
        ++ (List.range' 0 (resolveBorrows user s.debt bds).length).map Ev.stepStart
        ++ [Ev.settled (owedFrom env (resolveBorrows user s.debt bds) 0)]
    ∧ sF.cometBorrowed user base
        = s.cometBorrowed user base + owedFrom env (resolveBorrows user s.debt bds) 0
    ∧ paidOf sF.trace = paidOf s.trace ++ paidSpec env (resolveBorrows user s.debt bds) 0
    ∧ ((coll.Pairwise (fun a b => a.cToken ≠ b.cToken)
        ∧ coll.Pairwise (fun a b => underlyingFor env a ≠ underlyingFor env b)
        ∧ (∀ c ∈ coll, s.ctokenBal c.cToken env.migrator = 0)
        ∧ s.ethBal env.migrator = 0
        ∧ user ≠ env.migrator
        ∧ (∀ t, s.erc20Bal t env.migrator = 0)) →
        ∀ c ∈ coll,
          resolvedCollat s user c ≤ s.ctokenBal c.cToken user
          ∧ sF.ctokenBal c.cToken user
              = s.ctokenBal c.cToken user - resolvedCollat s user c
          ∧ sF.cometSupplied user (underlyingFor env c)
              = s.cometSupplied user (underlyingFor env c)
                + env.redeemOut c.cToken (resolvedCollat s user c)) := by
  simp only [migrate] at h
  split at h
  · exact absurd h (by simp)
  next hg =>
    have hg0 : s.inMigration = 0 := not_not.mp hg
    split at h
    · exact absurd h (by simp)
    next s2 hrun =>
      injection h with h
      subst h
      obtain ⟨bd, hbd, core, cond⟩ :=
        (chainMaster env (fuelFor (resolveBorrows user s.debt bds))).1
          { s with inMigration := s.inMigration + 1 }
          { user := user, borrowData := resolveBorrows user s.debt bds,
            collateral := coll, baseToken := base,
            totalBaseToBorrow := 0, step := 0 } s2 hrun
      dsimp only at hbd
      obtain ⟨c1, c2, c3, c4, c5⟩ := core
      dsimp only at c1 c2 c3 c4 c5
      refine ⟨hg0, ?_, ?_, ?_, ?_, ?_, ?_⟩
      · dsimp only
        rw [c1, hg0]
      · intro m
        have := c2 m
        dsimp only
        exact this
      · dsimp only
        rw [owedFrom_cons hbd]
        simpa using c3
      · dsimp only
        rw [owedFrom_cons hbd]
        simpa using c4
      · dsimp only
        rw [paidSpec_cons hbd]
        simpa using c5
      · rintro ⟨w1, w2, w3, w4, w5, w6⟩ c hc
        obtain ⟨f1, f2, f3⟩ := cond ⟨⟨w1, w2, w3, w4, w5⟩, w6⟩ c hc
        dsimp only at f1 f2 f3
        rw [resolvedCollat_guardBump] at f1 f2 f3
        exact ⟨f1, f2, f3⟩

/-! ### Further helper lemmas for the claims -/

/-- Resolving a collateral item whose amount was already resolved against the
same state changes nothing. -/
theorem resolvedCollat_idem (s : State) (u : Nat) (c : Collateral) :
    resolvedCollat s u { c with amount := resolvedCollat s u c }
      = resolvedCollat s u c := by
  by_cases hm : c.amount = MAXU
  · simp only [resolvedCollat, hm, if_true]
    split <;> rfl
  · simp [resolvedCollat, hm]

/-- `repayCodeOf` reads only debts and the collaborator's answer, so a trace
append does not change it. -/
theorem repayCodeOf_logEv (env : Env) (s : State) (e : Ev) (mkt user amt : Nat) :
    repayCodeOf env (s.logEv e) mkt user amt = repayCodeOf env s mkt user amt := rfl

set_option maxHeartbeats 4000000 in
set_option maxRecDepth 40000 in
/-- Scenario B's `migrate` succeeds and ends in `finalB`. -/
theorem outB_ok : migrate envB 10 [] bdsB 5 sB = .ok finalB := rfl

/-! ### The claims -/

/-- C1: for every call to `migrate` with any plan, either the migration
completes in full — every listed debt is reduced by its resolved repay
amount, every collateral item is moved into the target protocol, and the
target position reflects the borrowed settlement total — or the call fails
and no balance anywhere changes; there is no partial-commit outcome. -/
theorem migrate_atomicity (env : Env) (user : Nat) (coll : List Collateral)
    (bds : List BorrowData) (base : Nat) (s : State)
    (h1 : coll.Pairwise fun a b => a.cToken ≠ b.cToken)
    (h2 : coll.Pairwise fun a b => underlyingFor env a ≠ underlyingFor env b)
    (h3 : ∀ c ∈ coll, s.ctokenBal c.cToken env.migrator = 0)
    (h4 : s.ethBal env.migrator = 0)
    (h5 : user ≠ env.migrator)
    (h6 : ∀ t, s.erc20Bal t env.migrator = 0) :
    (∀ sF, migrate env user coll bds base s = .ok sF →
      (∀ m, sF.debt m user
          = s.debt m user - repayFrom (resolveBorrows user s.debt bds) 0 m)
      ∧ sF.cometBorrowed user base
          = s.cometBorrowed user base + owedFrom env (resolveBorrows user s.debt bds) 0
      ∧ ∀ c ∈ coll,
          sF.ctokenBal c.cToken user
            = s.ctokenBal c.cToken user - resolvedCollat s user c
          ∧ sF.cometSupplied user (underlyingFor env c)
            = s.cometSupplied user (underlyingFor env c)
              + env.redeemOut c.cToken (resolvedCollat s user c))
    ∧ (∀ e, migrate env user coll bds base s = .error e →
        migrateTx env user coll bds base s = s) := by
  refine ⟨?_, ?_⟩
  · intro sF hok
    have m := migrateOut hok
    refine ⟨fun mk => (m.2.2.1 mk).1, m.2.2.2.2.1, ?_⟩
    intro c hc
    have hf := m.2.2.2.2.2.2 ⟨h1, h2, h3, h4, h5, h6⟩ c hc
    exact ⟨hf.2.1, hf.2.2⟩
  · intro e he
    simp [migrateTx, he]

set_option maxHeartbeats 4000000 in
set_option maxRecDepth 40000 in
/-- C1 at Scenario A: the hypotheses hold and the completed migration shows
the full debt cleared, the collateral moved, and the borrow recorded. -/
theorem migrate_atomicity_w :
    (∀ t, sA.erc20Bal t envA.migrator = 0)
    ∧ ((∀ m, finalA.debt m 10
          = sA.debt m 10 - repayFrom (resolveBorrows 10 sA.debt bdsA) 0 m)
      ∧ finalA.cometBorrowed 10 5
          = sA.cometBorrowed 10 5 + owedFrom envA (resolveBorrows 10 sA.debt bdsA) 0
      ∧ ∀ c ∈ collatA,
          finalA.ctokenBal c.cToken 10
            = sA.ctokenBal c.cToken 10 - resolvedCollat sA 10 c
          ∧ finalA.cometSupplied 10 (underlyingFor envA c)
            = sA.cometSupplied 10 (underlyingFor envA c)
              + envA.redeemOut c.cToken (resolvedCollat sA 10 c)) :=
  have hz : ∀ t, sA.erc20Bal t envA.migrator = 0 := fun t => by simp [sA, envA]
  ⟨hz, (migrate_atomicity envA 10 collatA bdsA 5 sA (by decide) (by decide)
    (by decide) (by decide) (by decide) hz).1 finalA rfl⟩

/-- C2: the guard is 0 before and after every call to `migrate`, whether it
succeeds or fails; a call made while the guard is nonzero fails with
`Reentrancy` and changes nothing. -/
theorem migrate_guard_discipline (env : Env) (user : Nat)
    (coll : List Collateral) (bds : List BorrowData) (base : Nat) (s : State) :
    (∀ sF, migrate env user coll bds base s = .ok sF →
        s.inMigration = 0 ∧ sF.inMigration = 0)
    ∧ (s.inMigration ≠ 0 →
        migrate env user coll bds base s = .error (.Reentrancy 0)
        ∧ migrateTx env user coll bds base s = s)
    ∧ (∀ e, migrate env user coll bds base s = .error e →
        migrateTx env user coll bds base s = s) := by
  refine ⟨?_, ?_, ?_⟩
  · intro sF hok
    have m := migrateOut hok
    exact ⟨m.1, m.2.1⟩
  · intro hne
    have he : migrate env user coll bds base s = .error (.Reentrancy 0) := by
      simp only [migrate]
      rw [if_pos hne]
    exact ⟨he, by simp [migrateTx, he]⟩
  · intro e he
    simp [migrateTx, he]

/-- C2 at Scenario A with the guard already engaged: the call is rejected
with `Reentrancy 0` and the transaction leaves the state unchanged. -/
theorem migrate_guard_discipline_w :
    sG1.inMigration ≠ 0
    ∧ migrate envA 10 collatA bdsA 5 sG1 = .error (.Reentrancy 0)
    ∧ migrateTx envA 10 collatA bdsA 5 sG1 = sG1 :=
  have hne : sG1.inMigration ≠ 0 := by decide
  have hmain := (migrate_guard_discipline envA 10 collatA bdsA 5 sG1).2.1 hne
  ⟨hne, hmain.1, hmain.2⟩

/-- C3: on every successful migration the settlement total — the amount
borrowed from the target protocol, recorded in the one `settled` event —
equals the sum over all steps of that step's resolved repay amount plus its
venue fee (the fee-inclusive leg amounts). -/
theorem settlement_total (env : Env) (user : Nat) (coll : List Collateral)
    (bds : List BorrowData) (base : Nat) (s sF : State)
    (h : migrate env user coll bds base s = .ok sF) :
    schedOf sF.trace = schedOf s.trace
      ++ (List.range' 0 (resolveBorrows user s.debt bds).length).map Ev.stepStart
      ++ [Ev.settled (owedFrom env (resolveBorrows user s.debt bds) 0)]
    ∧ sF.cometBorrowed user base
      = s.cometBorrowed user base + owedFrom env (resolveBorrows user s.debt bds) 0
    ∧ owedFrom env (resolveBorrows user s.debt bds) 0
      = ((resolveBorrows user s.debt bds).map (legOwed env)).sum := by
  have m := migrateOut h
  exact ⟨m.2.2.2.1, m.2.2.2.2.1, owedFrom_zero_sum env _⟩

set_option maxHeartbeats 4000000 in
set_option maxRecDepth 40000 in
/-- C3 at Scenario B (debts 1000 and 400, fees 3 and 2): the settlement
total is 1000+3+400+2 = 1405 and the Comet borrow records it. -/
theorem settlement_total_w :
    migrate envB 10 [] bdsB 5 sB = .ok finalB
    ∧ finalB.cometBorrowed 10 5
        = sB.cometBorrowed 10 5 + owedFrom envB (resolveBorrows 10 sB.debt bdsB) 0
    ∧ owedFrom envB (resolveBorrows 10 sB.debt bdsB) 0 = 1405
    ∧ finalB.cometBorrowed 10 5 = 1405 :=
  have hB : migrate envB 10 [] bdsB 5 sB = .ok finalB := outB_ok
  have hparts := settlement_total envB 10 [] bdsB 5 sB finalB hB
  have h1405 : owedFrom envB (resolveBorrows 10 sB.debt bdsB) 0 = 1405 := rfl
  ⟨hB, hparts.2.1, h1405, by rw [hparts.2.1, h1405]; rfl⟩

set_option maxHeartbeats 4000000 in
set_option maxRecDepth 40000 in
/-- C4, refuted for borrow sentinels: with a flat fee of 0, debt 1000 on
market 1 and the plan [repay 600, repay sentinel] on that same market, the
code (which resolves the sentinel at `migrate` entry, lines 1419-1431)
submits 1000 at step 1 — the market echoes 1000 back as its error code —
while the spec-modelled chain that resolves at the instant step 1 executes
submits the live remainder 400.  The entry-time debt was 1000, the live
debt at step 1 was 400; the two runs are observably different. -/
theorem borrow_sentinel_entry_resolution_cex :
    migrate envD 10 [] bdsD 5 sD = .error (.CompoundV2Error 0 1000)
    ∧ migrateSpecT envD 10 [] bdsD 5 sD = .error (.CompoundV2Error 0 400)
    ∧ sD.debt 1 10 = 1000 := ⟨rfl, rfl, rfl⟩

/-- C4, amended: a borrow sentinel is resolved exactly once, at entry into
`migrate`, against the debt observed at that instant — the call behaves
identically to one whose plan was pre-resolved at entry; a collateral
sentinel, by contrast, is resolved only when its item is processed at
settlement, against the live balance at that moment. -/
theorem borrow_sentinel_entry_resolution (env : Env) (user : Nat)
    (coll : List Collateral) (bds : List BorrowData) (base : Nat) (s : State) :
    migrate env user coll bds base s
      = migrate env user coll (resolveBorrows user s.debt bds) base s
    ∧ ∀ (i : Nat) (c : Collateral) (rest : List Collateral) (sN : State),
        migrateCollaterals env user i (c :: rest) sN
          = migrateCollaterals env user i
              ({ c with amount := resolvedCollat sN user c } :: rest) sN := by
  constructor
  · simp only [migrate]
    rw [resolveBorrows_idem]
  · intro i c rest sN
    simp only [migrateCollaterals, resolvedCollat_idem]

/-- C5: a liquidity callback (either variant) whose caller is not the venue
recorded for the current step fails with `UnauthorizedCallback` and leaves
the state untouched. -/
theorem callback_unauthorized (env : Env) (caller fee0 fee1 : Nat)
    (a0 a1 : Int) (data : MigrationCallbackData) (s : State) (bd : BorrowData)
    (hg : s.inMigration = 1)
    (hbd : data.borrowData[data.step]? = some bd)
    (hc : caller ≠ bd.pool) :
    uniswapV3FlashCallback env caller fee0 fee1 data s
      = .error .UnauthorizedCallback
    ∧ uniswapV3FlashCallbackTx env caller fee0 fee1 data s = s
    ∧ uniswapV3SwapCallback env caller a0 a1 data s
      = .error .UnauthorizedCallback
    ∧ uniswapV3SwapCallbackTx env caller a0 a1 data s = s := by
  have hflash : uniswapV3FlashCallback env caller fee0 fee1 data s
      = .error .UnauthorizedCallback := by
    show uniswapV3FlashCallbackF env (2 * data.borrowData.length + 1 + 1)
        caller fee0 fee1 data s = .error .UnauthorizedCallback
    simp [uniswapV3FlashCallbackF, hg, hbd, hc]
  have hswap : uniswapV3SwapCallback env caller a0 a1 data s
      = .error .UnauthorizedCallback := by
    show uniswapV3SwapCallbackF env (2 * data.borrowData.length + 1 + 1)
        caller a0 a1 data s = .error .UnauthorizedCallback
    simp [uniswapV3SwapCallbackF, hg, hbd, hc]
  exact ⟨hflash, by simp [uniswapV3FlashCallbackTx, hflash], hswap,
    by simp [uniswapV3SwapCallbackTx, hswap]⟩

/-- C5 at Scenario B's step-0 context: caller 77 is not pool 21, so both
callback variants reject. -/
theorem callback_unauthorized_w :
    sBg.inMigration = 1
    ∧ ctxB.borrowData[ctxB.step]? = some ⟨1, 1000, 21, true⟩
    ∧ (77 : Nat) ≠ 21
    ∧ uniswapV3FlashCallback envB 77 3 0 ctxB sBg = .error .UnauthorizedCallback
    ∧ uniswapV3SwapCallback envB 77 3 0 ctxB sBg = .error .UnauthorizedCallback :=
  have h1 : sBg.inMigration = 1 := rfl
  have h2 : ctxB.borrowData[ctxB.step]? = some ⟨1, 1000, 21, true⟩ := rfl
  have h3 : (77 : Nat) ≠ 21 := by decide
  have hmain := callback_unauthorized envB 77 3 0 3 0 ctxB sBg
    ⟨1, 1000, 21, true⟩ h1 h2 h3
  ⟨h1, h2, h3, hmain.1, hmain.2.2.1⟩

/-- C6: every successful run pays each venue exactly its own leg's
fee-inclusive amount — the venue-payback events are precisely the per-leg
amounts `legOwed` of the resolved plan, in unwind order, and never the
accumulated settlement total. -/
theorem venue_paid_per_leg (env : Env) (user : Nat) (coll : List Collateral)
    (bds : List BorrowData) (base : Nat) (s sF : State)
    (h : migrate env user coll bds base s = .ok sF) :
    paidOf sF.trace
      = paidOf s.trace ++ paidSpec env (resolveBorrows user s.debt bds) 0
    ∧ ∀ j bd, (resolveBorrows user s.debt bds)[j]? = some bd →
        (j, legOwed env bd) ∈ paidOf sF.trace := by
  have m := migrateOut h
  have hp := m.2.2.2.2.2.1
  refine ⟨hp, ?_⟩
  intro j bd hj
  rw [hp]
  exact List.mem_append_right _ (paidSpec_mem env _ j bd hj)

set_option maxHeartbeats 4000000 in
set_option maxRecDepth 40000 in
/-- C6 at Scenario B: the venues are paid 402 (step 1, fee 2) and 1003
(step 0, fee 3) — each leg exactly its own amount, not the 1405 total. -/
theorem venue_paid_per_leg_w :
    migrate envB 10 [] bdsB 5 sB = .ok finalB
    ∧ paidOf finalB.trace
        = paidOf sB.trace ++ paidSpec envB (resolveBorrows 10 sB.debt bdsB) 0
    ∧ paidOf finalB.trace = [(1, 402), (0, 1003)] :=
  have hB : migrate envB 10 [] bdsB 5 sB = .ok finalB := outB_ok
  ⟨hB, (venue_paid_per_leg envB 10 [] bdsB 5 sB finalB hB).1, rfl⟩

set_option maxHeartbeats 4000000 in
set_option maxRecDepth 40000 in
/-- C7, refuted as stated: in Scenario B's plan under collaborators whose
market 2 rejects every repayment with code 5, the failing step is step 1
(the market-2 leg), yet the run fails with `CompoundV2Error 0 5` — the
first argument is the hard-coded location discriminator 0 (lines
1489-1494), never the step index 1 the spec's `SourceMarketError(step,
code)` promises. -/
theorem source_market_error_cex :
    migrate envE 10 [] bdsB 5 sB = .error (.CompoundV2Error 0 5)
    ∧ bdsB[1]? = some ⟨2, 400, 22, true⟩
    ∧ envE.repayErr 2 10 400 = 5
    ∧ ∀ code, migrate envE 10 [] bdsB 5 sB ≠ .error (.CompoundV2Error 1 code) := by
  have h : migrate envE 10 [] bdsB 5 sB = .error (.CompoundV2Error 0 5) := rfl
  refine ⟨h, rfl, rfl, fun code hc => ?_⟩
  rw [h] at hc
  injection hc with he
  injection he with h01 h5c
  exact absurd h01 (by decide)

/-- C7, amended: when the source market's repay-on-behalf call returns a
nonzero error code in a step's continuation handler, the whole execution
unit fails with `CompoundV2Error 0 code` — the returned code is carried,
but the first argument is the fixed repayment-site discriminator 0, not the
step's index. -/
theorem source_market_error_location (env : Env) (caller fee0 fee1 : Nat)
    (a0 a1 : Int) (data : MigrationCallbackData) (s : State) (bd : BorrowData)
    (hg : s.inMigration = 1)
    (hbd : data.borrowData[data.step]? = some bd)
    (hc : caller = bd.pool)
    (herr : repayCodeOf env s bd.borrowCToken data.user bd.borrowAmount ≠ 0) :
    uniswapV3FlashCallback env caller fee0 fee1 data s
      = .error (.CompoundV2Error 0
          (repayCodeOf env s bd.borrowCToken data.user bd.borrowAmount))
    ∧ uniswapV3SwapCallback env caller a0 a1 data s
      = .error (.CompoundV2Error 0
          (repayCodeOf env s bd.borrowCToken data.user bd.borrowAmount))
    ∧ uniswapV3FlashCallbackTx env caller fee0 fee1 data s = s
    ∧ uniswapV3SwapCallbackTx env caller a0 a1 data s = s := by
  have hflash : uniswapV3FlashCallback env caller fee0 fee1 data s
      = .error (.CompoundV2Error 0
          (repayCodeOf env s bd.borrowCToken data.user bd.borrowAmount)) := by
    show uniswapV3FlashCallbackF env (2 * data.borrowData.length + 1 + 1)
        caller fee0 fee1 data s = _
    simp [uniswapV3FlashCallbackF, repayBorrowBehalf, repayCodeOf_logEv,
      hg, hbd, hc, herr]
  have hswap : uniswapV3SwapCallback env caller a0 a1 data s
      = .error (.CompoundV2Error 0
          (repayCodeOf env s bd.borrowCToken data.user bd.borrowAmount)) := by
    show uniswapV3SwapCallbackF env (2 * data.borrowData.length + 1 + 1)
        caller a0 a1 data s = _
    simp [uniswapV3SwapCallbackF, repayBorrowBehalf, repayCodeOf_logEv,
      hg, hbd, hc, herr]
  exact ⟨hflash, hswap, by simp [uniswapV3FlashCallbackTx, hflash],
    by simp [uniswapV3SwapCallbackTx, hswap]⟩

/-- C7 (amended form) at Scenario B's step-1 context under `envE`: market 2
answers code 5 and both callback variants fail with `CompoundV2Error 0 5`. -/
theorem source_market_error_location_w :
    sBg.inMigration = 1
    ∧ ctxE.borrowData[ctxE.step]? = some ⟨2, 400, 22, true⟩
    ∧ repayCodeOf envE sBg 2 10 400 ≠ 0
    ∧ uniswapV3FlashCallback envE 22 0 2 ctxE sBg
        = .error (.CompoundV2Error 0 (repayCodeOf envE sBg 2 10 400))
    ∧ uniswapV3SwapCallback envE 22 ((-400 : Int)) ((402 : Int)) ctxE sBg
        = .error (.CompoundV2Error 0 (repayCodeOf envE sBg 2 10 400)) :=
  have h1 : sBg.inMigration = 1 := rfl
  have h2 : ctxE.borrowData[ctxE.step]? = some ⟨2, 400, 22, true⟩ := rfl
  have h3 : repayCodeOf envE sBg 2 10 400 ≠ 0 := by decide
  have hmain := source_market_error_location envE 22 0 2 (-400 : Int) (402 : Int)
    ctxE sBg ⟨2, 400, 22, true⟩ h1 h2 rfl h3
  ⟨h1, h2, h3, hmain.1, hmain.2.1⟩

/-- C8: in every migration started on a fresh trace, the scheduling trace is
exactly the step entries `0, 1, …, n-1` of the plan in order (strictly
increasing from 0, one per continuation, bounded by the plan length)
followed by the single settlement after the last step. -/
theorem plan_order (env : Env) (user : Nat) (coll : List Collateral)
    (bds : List BorrowData) (base : Nat) (s sF : State)
    (htr : s.trace = []) (h : migrate env user coll bds base s = .ok sF) :
    schedOf sF.trace
      = (List.range' 0 bds.length).map Ev.stepStart
        ++ [Ev.settled (owedFrom env (resolveBorrows user s.debt bds) 0)] := by
  have m := migrateOut h
  have hsched := m.2.2.2.1
  rw [htr] at hsched
  simpa [resolveBorrows_length] using hsched

set_option maxHeartbeats 4000000 in
set_option maxRecDepth 40000 in
/-- C8 at Scenario B: the schedule reads step 0, then step 1, then the one
settlement of 1405 — plan order exactly. -/
theorem plan_order_w :
    sB.trace = []
    ∧ migrate envB 10 [] bdsB 5 sB = .ok finalB
    ∧ schedOf finalB.trace
        = (List.range' 0 bdsB.length).map Ev.stepStart
          ++ [Ev.settled (owedFrom envB (resolveBorrows 10 sB.debt bdsB) 0)]
    ∧ schedOf finalB.trace = [.stepStart 0, .stepStart 1, .settled 1405] :=
  have hB : migrate envB 10 [] bdsB 5 sB = .ok finalB := outB_ok
  ⟨rfl, hB, plan_order envB 10 [] bdsB 5 sB finalB rfl hB, rfl⟩

/-- C9: `sweep` while the guard is engaged fails with the `Reentrancy`-class
rejection and has no effect; while idle it transfers the contract's full
balance of the given token (or its full native balance for token 0) to the
construction-time recipient, and fails with `SweepFailure` when the
send/transfer reports failure. -/
theorem sweep_spec (env : Env) (token : Nat) (s : State)
    (hsm : env.sweepee ≠ env.migrator) :
    (s.inMigration ≠ 0 →
        sweep env token s = .error (.Reentrancy 2) ∧ sweepTx env token s = s)
    ∧ (s.inMigration = 0 ∧ token = 0 ∧ env.sendOk = true →
        ∃ s2, sweep env token s = .ok s2
          ∧ s2.ethBal env.migrator = 0
          ∧ s2.ethBal env.sweepee = s.ethBal env.sweepee + s.ethBal env.migrator
          ∧ s2.erc20Bal = s.erc20Bal)
    ∧ (s.inMigration = 0 ∧ token = 0 ∧ env.sendOk = false →
        sweep env token s = .error (.SweepFailure 0) ∧ sweepTx env token s = s)
    ∧ (s.inMigration = 0 ∧ token ≠ 0 ∧ env.erc20TransferOk token = true →
        ∃ s2, sweep env token s = .ok s2
          ∧ s2.erc20Bal token env.migrator = 0
          ∧ s2.erc20Bal token env.sweepee
              = s.erc20Bal token env.sweepee + s.erc20Bal token env.migrator
          ∧ s2.ethBal = s.ethBal)
    ∧ (s.inMigration = 0 ∧ token ≠ 0 ∧ env.erc20TransferOk token = false →
        sweep env token s = .error (.SweepFailure 1) ∧ sweepTx env token s = s) := by
  refine ⟨?_, ?_, ?_, ?_, ?_⟩
  · intro hne
    have he : sweep env token s = .error (.Reentrancy 2) := by
      simp only [sweep]
      rw [if_pos hne]
    exact ⟨he, by simp [sweepTx, he]⟩
  · rintro ⟨hg, ht, hsd⟩
    subst ht
    have he : sweep env 0 s = .ok { s with
        ethBal := upd1 (upd1 s.ethBal env.migrator 0) env.sweepee
          ((upd1 s.ethBal env.migrator 0) env.sweepee + s.ethBal env.migrator) } := by
      simp only [sweep]
      rw [if_neg (by simp [hg]), if_pos trivial, if_pos hsd]
    refine ⟨_, he, ?_, ?_, rfl⟩
    · dsimp only
      rw [upd1_ne fun hx => hsm hx.symm, upd1_same]
    · dsimp only
      rw [upd1_same, upd1_ne hsm]
  · rintro ⟨hg, ht, hsd⟩
    subst ht
    have he : sweep env 0 s = .error (.SweepFailure 0) := by
      simp only [sweep]
      rw [if_neg (by simp [hg]), if_pos trivial, if_neg (by simp [hsd])]
    exact ⟨he, by simp [sweepTx, he]⟩
  · rintro ⟨hg, ht, hok⟩
    have he : sweep env token s = .ok { s with
        erc20Bal := upd2 (upd2 s.erc20Bal token env.migrator 0) token env.sweepee
          ((upd2 s.erc20Bal token env.migrator 0) token env.sweepee
            + s.erc20Bal token env.migrator) } := by
      simp only [sweep]
      rw [if_neg (by simp [hg]), if_neg ht, if_pos hok]
    refine ⟨_, he, ?_, ?_, rfl⟩
    · dsimp only
      rw [upd2_ne_snd fun hx => hsm hx.symm, upd2_same]
    · dsimp only
      rw [upd2_same, upd2_ne_snd hsm]
  · rintro ⟨hg, ht, hok⟩
    have he : sweep env token s = .error (.SweepFailure 1) := by
      simp only [sweep]
      rw [if_neg (by simp [hg]), if_neg ht, if_neg (by simp [hok])]
    exact ⟨he, by simp [sweepTx, he]⟩

/-- C9 at the stray-balance state: with the guard idle the full 77 tokens
move to recipient 3, and with it engaged the call is rejected. -/
theorem sweep_spec_w :
    envA.sweepee ≠ envA.migrator
    ∧ (∃ s2, sweep envA 5 sSw = .ok s2
        ∧ s2.erc20Bal 5 envA.migrator = 0
        ∧ s2.erc20Bal 5 envA.sweepee
            = sSw.erc20Bal 5 envA.sweepee + sSw.erc20Bal 5 envA.migrator
        ∧ s2.ethBal = sSw.ethBal)
    ∧ (sweep envA 5 { sSw with inMigration := 1 } = .error (.Reentrancy 2)
        ∧ sweepTx envA 5 { sSw with inMigration := 1 } = { sSw with inMigration := 1 }) :=
  have hsm : envA.sweepee ≠ envA.migrator := by decide
  ⟨hsm, (sweep_spec envA 5 sSw hsm).2.2.2.1 ⟨rfl, by decide, rfl⟩,
    (sweep_spec envA 5 { sSw with inMigration := 1 } hsm).1 (by decide)⟩

/-- C10: a `migrate` call whose plan holds no borrow step can never succeed:
the step-0 lookup into the empty plan is out of bounds, the transaction
rolls back, and with the guard idle the error is exactly
`IndexOutOfBounds`. -/
theorem empty_plan_never_succeeds (env : Env) (user : Nat)
    (coll : List Collateral) (base : Nat) (s : State) :
    (∀ s2, migrate env user coll [] base s ≠ .ok s2)
    ∧ migrateTx env user coll [] base s = s
    ∧ (s.inMigration = 0 →
        migrate env user coll [] base s = .error .IndexOutOfBounds) := by
  by_cases hgz : s.inMigration = 0
  · have he : migrate env user coll [] base s = .error .IndexOutOfBounds := by
      simp only [migrate]
      rw [if_neg (by simp [hgz])]
      rfl
    exact ⟨fun s2 hok => by rw [he] at hok; exact absurd hok (by simp),
      by simp [migrateTx, he], fun _ => he⟩
  · have he : migrate env user coll [] base s = .error (.Reentrancy 0) := by
      simp only [migrate]
      rw [if_pos hgz]
    exact ⟨fun s2 hok => by rw [he] at hok; exact absurd hok (by simp),
      by simp [migrateTx, he], fun hg0 => absurd hg0 hgz⟩

/-- C10 at Scenario A with the empty plan: the call fails with
`IndexOutOfBounds` and the transaction returns the state unchanged. -/
theorem empty_plan_never_succeeds_w :
    sA.inMigration = 0
    ∧ migrate envA 10 collatA [] 5 sA = .error .IndexOutOfBounds
    ∧ migrateTx envA 10 collatA [] 5 sA = sA :=
  ⟨rfl, (empty_plan_never_succeeds envA 10 collatA 5 sA).2.2 rfl,
    (empty_plan_never_succeeds envA 10 collatA 5 sA).2.1⟩

end CometMigrator
